import Mathlib

/-!
Verification development for the tensorj J-language interpreter core.

The definitions below are a shallow embedding of the C++ sources:
  * `src/Src/lexer/lexer.cpp` (class `Lexer`),
  * `src/src/lexer/token.hpp` (`TokenType`, `Token`),
  * `src/src/ast/ast_nodes.hpp` (AST node variants),
  * `src/src/parser/parser.cpp` (class `Parser`),
  * `src/src/interpreter/tf_operations.cpp` (`JTensor`, `TFSession` kernels),
  * `src/src/interpreter/interpreter.cpp` (class `Interpreter`).

Machine integers (`long long`, `int`) are modelled as `Int`, `size_t` indices as
`Nat`, and IEEE-754 `double` values as exact rationals `ℚ`; every concrete
computation proved below stays inside the subset on which IEEE-754 double
arithmetic is exact (small integers and halves), so the rational model agrees
with the C++ semantics there.  C++ functions that can throw or return null
pointers are modelled with `Option`.  Unbounded loops and recursions that the
C++ performs are modelled with an explicit fuel parameter: `none` means the
computation did not finish within the given fuel.  Loops that provably advance
the scan position are run with fuel `source.length + 1`, which always suffices,
so only genuinely non-terminating recursions can exhaust fuel.
-/

namespace JInterpreter

/-- Character constants used by the lexer (ASCII NUL, apostrophe, backslash). -/
def nulChar : Char := Char.ofNat 0

def quoteChar : Char := Char.ofNat 39

def backslashChar : Char := Char.ofNat 92

/-- C `isspace` for the default locale: space, tab, newline, vtab, formfeed, CR. -/
def csIsSpace (c : Char) : Bool :=
  c == ' ' || c == Char.ofNat 9 || c == Char.ofNat 10 || c == Char.ofNat 11 ||
  c == Char.ofNat 12 || c == Char.ofNat 13

/-- C `isdigit`. -/
def csIsDigit (c : Char) : Bool := '0' ≤ c && c ≤ '9'

/-- C `isalpha` (ASCII letters). -/
def csIsAlpha (c : Char) : Bool := ('a' ≤ c && c ≤ 'z') || ('A' ≤ c && c ≤ 'Z')

/-- C `isalnum`. -/
def csIsAlnum (c : Char) : Bool := csIsAlpha c || csIsDigit c

/-- Token kinds, from `src/src/lexer/token.hpp` (`enum class TokenType`). -/
inductive TokenType where
  | NOUN_INTEGER | NOUN_FLOAT | NOUN_STRING
  | VERB | ADVERB | CONJUNCTION
  | NAME
  | ASSIGN_LOCAL | ASSIGN_GLOBAL
  | LEFT_PAREN | RIGHT_PAREN | COMMA | APOSTROPHE | COLON
  | IF | DO | ELSE | ELSEIF | END | SELECT | CASE | TRY | CATCH | WHILE
  | FOR_FRAMENAME
  | COMMENT | NEWLINE | WHITESPACE | END_OF_FILE | UNKNOWN
  deriving DecidableEq, Repr

/-- The literal payload of a token (`std::variant<std::monostate, long long,
double, std::string>` in `token.hpp`); doubles are modelled as exact `ℚ`. -/
inductive TokLiteral where
  | mono
  | int (v : Int)
  | float (v : ℚ)
  | str (s : String)
  deriving DecidableEq, Repr

/-- Source location `(line, column)` from `src/Src/common/Source_location.hpp`;
both coordinates are C `int`s. -/
structure SourceLocation where
  line : Int
  column : Int
  deriving DecidableEq, Repr

/-- A token, from `token.hpp`: kind, exact lexeme, location, literal value. -/
structure Token where
  type : TokenType
  lexeme : String
  loc : SourceLocation
  literal : TokLiteral
  deriving DecidableEq, Repr

/-- Lexer state, from `src/Src/lexer/lexer.cpp`: the source, the current
position `m_current_pos` (a `size_t`), `m_current_line` and
`m_line_start_pos`. -/
structure Lexer where
  source : List Char
  pos : Nat
  line : Int
  lineStart : Int
  deriving Repr

/-- `Lexer::is_at_end`. -/
def Lexer.isAtEnd (lx : Lexer) : Bool := lx.source.length ≤ lx.pos

/-- `Lexer::peek(offset)`: character at `pos + offset`, NUL past the end. -/
def Lexer.peekAt (lx : Lexer) (offset : Nat) : Char :=
  if lx.source.length ≤ lx.pos + offset then nulChar
  else lx.source.getD (lx.pos + offset) nulChar

/-- `Lexer::advance()`: if not at the end, increments `pos`; in either case it
returns `source[pos - 1]` afterwards.  At the very end of the input the
position does not move and the previous (final) character is returned again:
this detail is the cause of the non-termination established in claim C9. -/
def Lexer.advance (lx : Lexer) : Char × Lexer :=
  if lx.pos < lx.source.length then
    (lx.source.getD lx.pos nulChar, ⟨lx.source, lx.pos + 1, lx.line, lx.lineStart⟩)
  else
    (lx.source.getD (lx.pos - 1) nulChar, lx)

/-- `Lexer::match(expected)`: conditional single-character advance. -/
def Lexer.matchChar (lx : Lexer) (expected : Char) : Bool × Lexer :=
  if lx.isAtEnd then (false, lx)
  else if lx.peekAt 0 != expected then (false, lx)
  else (true, ⟨lx.source, lx.pos + 1, lx.line, lx.lineStart⟩)

/-- `m_source.substr(start, len)`. -/
def Lexer.substr (lx : Lexer) (start len : Nat) : String :=
  String.mk ((lx.source.drop start).take len)

/-- `Lexer::make_token(type, lexeme)` for the non-empty-lexeme path (every call
site in `scan_token` passes an explicit non-empty lexeme): the column is
`pos - line_start - lexeme.length + 1`. -/
def Lexer.makeToken (lx : Lexer) (t : TokenType) (lexeme : String) : Token :=
  ⟨t, lexeme, ⟨lx.line, (lx.pos : Int) - lx.lineStart - lexeme.length + 1⟩, .mono⟩

/-- `Lexer::make_token_with_literal`. -/
def Lexer.makeTokenLit (lx : Lexer) (t : TokenType) (lexeme : String)
    (lit : TokLiteral) : Token :=
  ⟨t, lexeme, ⟨lx.line, (lx.pos : Int) - lx.lineStart - lexeme.length + 1⟩, lit⟩

/-- The digit-consuming loop `while (isdigit(peek())) advance();`.  Each
iteration advances `pos`, so fuel `source.length + 1` always suffices. -/
def Lexer.scanDigits : Nat → Lexer → Lexer
  | 0, lx => lx
  | fuel + 1, lx =>
    if csIsDigit (lx.peekAt 0) then Lexer.scanDigits fuel (lx.advance).2 else lx

/-- Value of a digit string (most significant first). -/
def digitsToNat (cs : List Char) : Nat :=
  cs.foldl (fun a c => a * 10 + (c.toNat - 48)) 0

/-- Model of `std::stoll` on the lexemes the lexer builds: an optional leading
minus sign followed by a digit prefix; no digits means `std::invalid_argument`
(`none`).  Overflow cannot occur in the unbounded `Int` model. -/
def stollModel (cs : List Char) : Option Int :=
  let (neg, rest) := match cs with
    | '-' :: r => (true, r)
    | r => (false, r)
  let ds := rest.takeWhile csIsDigit
  if ds.isEmpty then none
  else some (if neg then -(digitsToNat ds : Int) else (digitsToNat ds : Int))

/-- Model of `std::stod` on the lexemes the lexer builds: optional minus sign,
integer digits, optional `.` plus fraction digits; entirely digit-free input
(such as `"."`) is `std::invalid_argument` (`none`). -/
def stodModel (cs : List Char) : Option ℚ :=
  let (neg, rest) := match cs with
    | '-' :: r => (true, r)
    | r => (false, r)
  let intDs := rest.takeWhile csIsDigit
  let rest2 := rest.drop intDs.length
  let fracDs := match rest2 with
    | '.' :: r => r.takeWhile csIsDigit
    | _ => []
  if intDs.isEmpty && fracDs.isEmpty then none
  else
    let v : ℚ := (digitsToNat intDs : ℚ) +
      (digitsToNat fracDs : ℚ) / ((10 : ℚ) ^ fracDs.length)
    some (if neg then -v else v)

/-- `Lexer::number()`: called with the first character (a digit, or `_` from
the negative-literal case) already consumed.  Mirrors the `start_pos`
adjustment for `_`, the digit loops, the `.`-plus-digit float extension, and
the `stoll`/`stod` conversion with `_` rewritten to `-`. -/
def Lexer.number (lx : Lexer) : Token × Lexer :=
  let startPos0 := lx.pos - 1
  let isNeg := lx.source.getD startPos0 nulChar == '_'
  let startPos := if isNeg then lx.pos else startPos0
  let lx1 := Lexer.scanDigits (lx.source.length + 1) lx
  let (isFloat, lx2) :=
    if lx1.peekAt 0 == '.' && csIsDigit (lx1.peekAt 1) then
      (true, Lexer.scanDigits (lx1.source.length + 1) (lx1.advance).2)
    else (false, lx1)
  let body := (lx2.source.drop startPos).take (lx2.pos - startPos)
  let lexemeChars := if isNeg then '_' :: body else body
  let lexeme := String.mk lexemeChars
  let valStr := match lexemeChars with
    | '_' :: r => '-' :: r
    | r => r
  if isFloat then
    match stodModel valStr with
    | some v => (lx2.makeTokenLit .NOUN_FLOAT lexeme (.float v), lx2)
    | none => (lx2.makeToken .UNKNOWN lexeme, lx2)
  else
    match stollModel valStr with
    | some v => (lx2.makeTokenLit .NOUN_INTEGER lexeme (.int v), lx2)
    | none => (lx2.makeToken .UNKNOWN lexeme, lx2)

/-- The scanning loop of `Lexer::string_literal()`.  The inner doubled-quote
branch of the C++ is kept although it is unreachable (the loop condition
already excludes a quote at `peek()`).  Each iteration advances, so fuel
`source.length + 1` suffices. -/
def Lexer.stringLoop : Nat → Lexer → List Char → Lexer × List Char
  | 0, lx, acc => (lx, acc)
  | fuel + 1, lx, acc =>
    if lx.peekAt 0 != quoteChar && !lx.isAtEnd then
      if lx.peekAt 0 == quoteChar && lx.peekAt 1 == quoteChar then
        -- dead branch in the source, kept verbatim
        Lexer.stringLoop fuel ((lx.advance).2.advance).2 (acc ++ [quoteChar])
      else
        Lexer.stringLoop fuel (lx.advance).2 (acc ++ [lx.peekAt 0])
    else (lx, acc)

/-- `Lexer::string_literal()`: called with the opening quote consumed. -/
def Lexer.stringLit (lx : Lexer) : Token × Lexer :=
  let startPos := lx.pos
  let (lx1, value) := Lexer.stringLoop (lx.source.length + 1) lx []
  if lx1.isAtEnd then
    (lx1.makeToken .UNKNOWN (lx1.substr (startPos - 1) (lx1.pos - (startPos - 1))), lx1)
  else
    let lx2 := (lx1.advance).2
    let lexeme := lx2.substr (startPos - 1) (lx2.pos - (startPos - 1))
    (lx2.makeTokenLit .NOUN_STRING lexeme (.str (String.mk value)), lx2)

/-- The identifier-consuming loop `while (isalnum(peek()) || peek() == '_')`. -/
def Lexer.scanIdentChars : Nat → Lexer → Lexer
  | 0, lx => lx
  | fuel + 1, lx =>
    if csIsAlnum (lx.peekAt 0) || lx.peekAt 0 == '_' then
      Lexer.scanIdentChars fuel (lx.advance).2
    else lx

/-- The control-word table `keywords` from `lexer.cpp`. -/
def keywordLookup (s : String) : Option TokenType :=
  if s == "NB." then some .COMMENT
  else if s == "if." then some .IF
  else if s == "do." then some .DO
  else if s == "else." then some .ELSE
  else if s == "elseif." then some .ELSEIF
  else if s == "end." then some .END
  else if s == "select." then some .SELECT
  else if s == "case." then some .CASE
  else if s == "while." then some .WHILE
  else if s == "for." then some .FOR_FRAMENAME
  else none

/-- `Lexer::identifier_or_keyword()`: first character already consumed.  The
C++ guard `isalnum(peek(-1))` passes `-1` to a `size_t` parameter; by unsigned
wraparound it reads `source[pos - 1]`, which is how it is modelled here. -/
def Lexer.identifier (lx : Lexer) : Token × Lexer :=
  let startPos := lx.pos - 1
  let lx1 := Lexer.scanIdentChars (lx.source.length + 1) lx
  let lx2 :=
    if (lx1.peekAt 0 == '.' || lx1.peekAt 0 == ':') &&
        csIsAlnum (lx1.source.getD (lx1.pos - 1) nulChar) then
      (lx1.advance).2
    else lx1
  let lexeme := lx2.substr startPos (lx2.pos - startPos)
  match keywordLookup lexeme with
  | some kw => (lx2.makeToken kw lexeme, lx2)
  | none => (lx2.makeToken .NAME lexeme, lx2)

/-- The comment-consuming loop `while (peek() != '\n' && !is_at_end())`. -/
def Lexer.scanCommentChars : Nat → Lexer → Lexer
  | 0, lx => lx
  | fuel + 1, lx =>
    if lx.peekAt 0 != '\n' && !lx.isAtEnd then
      Lexer.scanCommentChars fuel (lx.advance).2
    else lx

/-- `Lexer::comment()`: called with `NB.` consumed. -/
def Lexer.comment (lx : Lexer) : Token × Lexer :=
  let startPos := lx.pos - 3
  let lx1 := Lexer.scanCommentChars (lx.source.length + 1) lx
  (lx1.makeToken .COMMENT (lx1.substr startPos (lx1.pos - startPos)), lx1)

/-- The single-character punctuation set of the combined `case` labels
`'+','-','*','%','#','<','>','$','~','|'` in `scan_token`. -/
def isPunctVerbChar (c : Char) : Bool :=
  c == '+' || c == '-' || c == '*' || c == '%' || c == '#' ||
  c == '<' || c == '>' || c == '$' || c == '~' || c == '|'

/-- Fueled body of the whitespace-skipping loop inside `scan_token`
(`while (isspace(peek()) && peek() != '\n') advance();`). -/
def Lexer.skipWsLoop : Nat → Lexer → Lexer
  | 0, lx => lx
  | fuel + 1, lx =>
    if csIsSpace (lx.peekAt 0) && lx.peekAt 0 != '\n' then
      Lexer.skipWsLoop fuel (lx.advance).2
    else lx

/-- The whitespace-skipping loop run to completion: each iteration requires a
genuine space at `peek()`, hence `pos < length`, so it performs at most
`length - pos` steps and fuel `length + 1` always suffices. -/
def Lexer.skipWhitespace (lx : Lexer) : Lexer :=
  Lexer.skipWsLoop (lx.source.length + 1) lx

/-- `Lexer::scan_token()`.  The one genuinely recursive call is the re-scan
after skipping whitespace (`return scan_token();`), which is what the explicit
fuel accounts for; `none` means the C++ recursion does not terminate within
`fuel` steps.  All other loops advance the position and are run with fuel
`source.length + 1`, which always suffices. -/
def Lexer.scanToken : Nat → Lexer → Option (Token × Lexer)
  | 0, _ => none
  | fuel + 1, lx0 =>
    let (c, lx) := lx0.advance
    if csIsSpace c && c != '\n' then
      Lexer.scanToken fuel (Lexer.skipWhitespace lx)
    else if c == '\n' then
      let lx1 : Lexer := ⟨lx.source, lx.pos, lx.line + 1, (lx.pos : Int)⟩
      some (lx1.makeToken .NEWLINE "\\n", lx1)
    else if c == '(' then some (lx.makeToken .LEFT_PAREN "(", lx)
    else if c == ')' then some (lx.makeToken .RIGHT_PAREN ")", lx)
    else if c == quoteChar then some lx.stringLit
    else if c == '_' && csIsDigit (lx.peekAt 0) then some lx.number
    else if c == '.' then
      -- `if (match(' ')) { }` : consumes one space if present
      let lx := (lx.matchChar ' ').2
      if csIsDigit (lx.peekAt 0) then
        -- `m_current_pos--` then `number()`; for input starting with `.` this
        -- underflows start_pos in the C++ (undefined behaviour), a path not
        -- reached by any theorem below
        some (Lexer.number ⟨lx.source, lx.pos - 1, lx.line, lx.lineStart⟩)
      else
        let (m, lxE) := lx.matchChar '='
        if m then some (lxE.makeToken .ASSIGN_LOCAL "=.", lxE)
        else some (lx.makeToken .VERB ".", lx)
    else if c == ':' then
      let (m, lxE) := lx.matchChar '='
      if m then some (lxE.makeToken .ASSIGN_GLOBAL "=:", lxE)
      else some (lx.makeToken .COLON ":", lx)
    else if c == '=' then
      let (m1, lx1) := lx.matchChar '.'
      if m1 then some (lx1.makeToken .ASSIGN_LOCAL "=.", lx1)
      else
        let (m2, lx2) := lx.matchChar ':'
        if m2 then some (lx2.makeToken .ASSIGN_GLOBAL "=:", lx2)
        else some (lx.makeToken .VERB "=", lx)
    else if isPunctVerbChar c then
      if c == '<' then
        let (m, lx1) := lx.matchChar ':'
        if m then some (lx1.makeToken .VERB "<:", lx1)
        else some (lx.makeToken .VERB "<", lx)
      else if c == '>' then
        let (m, lx1) := lx.matchChar ':'
        if m then some (lx1.makeToken .VERB ">:", lx1)
        else some (lx.makeToken .VERB ">", lx)
      else some (lx.makeToken .VERB (String.mk [c]), lx)
    else if c == '/' || c == backslashChar then
      let (m, lx1) := lx.matchChar ':'
      if m then some (lx1.makeToken .ADVERB (String.mk [c] ++ ":"), lx1)
      else some (lx.makeToken .ADVERB (String.mk [c]), lx)
    else if c == '^' then
      let (m, lx1) := lx.matchChar ':'
      if m then some (lx1.makeToken .CONJUNCTION "^:", lx1)
      else some (lx.makeToken .CONJUNCTION "^", lx)
    else if csIsAlpha c || c == '_' then
      if c == 'N' && lx.peekAt 0 == 'B' && lx.peekAt 1 == '.' then
        some (Lexer.comment ((lx.advance).2.advance).2)
      else some lx.identifier
    else if csIsDigit c then some lx.number
    else some (lx.makeToken .UNKNOWN (String.mk [c]), lx)

/-- The token `Token(END_OF_FILE, "EOF", current_location())` appended by
`tokenize`, where `current_location()` is `(line, pos - line_start + 1)`. -/
def Lexer.eofToken (lx : Lexer) : Token :=
  ⟨.END_OF_FILE, "EOF", ⟨lx.line, (lx.pos : Int) - lx.lineStart + 1⟩, .mono⟩

/-- The `while (!is_at_end())` loop of `Lexer::tokenize()`, including the
filtering of `WHITESPACE`/`COMMENT` tokens and the safety break that forces
progress when `scan_token` did not move (dead in practice, mirrored anyway).
Each completed iteration advances the position, so the outer fuel
`source.length + 1` always suffices; `none` only arises when `scan_token`
itself fails to terminate within `scanFuel`. -/
def Lexer.tokenizeLoop (scanFuel : Nat) :
    Nat → Lexer → List Token → Option (List Token)
  | 0, _, _ => none
  | fuel + 1, lx, acc =>
    if lx.isAtEnd then some (acc ++ [lx.eofToken])
    else
      let startPos := lx.pos
      match Lexer.scanToken scanFuel lx with
      | none => none
      | some (tok, lx1) =>
        let acc :=
          if tok.type != .WHITESPACE && tok.type != .COMMENT then acc ++ [tok]
          else acc
        if tok.type == .END_OF_FILE then some (acc ++ [lx1.eofToken])
        else if lx1.pos == startPos && !lx1.isAtEnd then
          let lx2 := (lx1.advance).2
          let acc := acc ++ [lx2.makeToken .UNKNOWN (lx1.substr startPos 1)]
          if lx2.source.length ≤ lx2.pos then some (acc ++ [lx2.eofToken])
          else Lexer.tokenizeLoop scanFuel fuel lx2 acc
        else Lexer.tokenizeLoop scanFuel fuel lx1 acc

/-- `Lexer::tokenize()` on a fresh lexer (`pos = 0`, `line = 1`,
`line_start = 0`).  `scanFuel` bounds the whitespace re-scan recursion inside
`scan_token`; `none` means the C++ implementation does not terminate. -/
def tokenize (scanFuel : Nat) (source : List Char) : Option (List Token) :=
  Lexer.tokenizeLoop scanFuel (source.length + 1) ⟨source, 0, 1, 0⟩ []

/-! ### AST, from `src/src/ast/ast_nodes.hpp` -/

/-- `NounValue`: `std::variant<long long, double, std::string, std::nullptr_t>`. -/
inductive NounValue where
  | int (v : Int)
  | float (v : ℚ)
  | str (s : String)
  | null
  deriving DecidableEq, Repr

/-- The AST node variants of `ast_nodes.hpp` that the parser constructs.  Each
node carries its source location.  `conjunctionApplication`'s right operand is
optional, matching the two C++ constructors. -/
inductive Ast where
  | nounLiteral (value : NounValue) (loc : SourceLocation)
  | vectorLiteral (elements : List NounValue) (loc : SourceLocation)
  | name (n : String) (loc : SourceLocation)
  | verb (identifier : String) (loc : SourceLocation)
  | adverb (identifier : String) (loc : SourceLocation)
  | conjunction (identifier : String) (loc : SourceLocation)
  | monadicApplication (verbExpr argument : Ast) (loc : SourceLocation)
  | dyadicApplication (leftArgument verbExpr rightArgument : Ast) (loc : SourceLocation)
  | adverbApplication (verbExpr adverbExpr : Ast) (loc : SourceLocation)
  | conjunctionApplication (leftOperand conjunctionExpr : Ast)
      (rightOperand : Option Ast) (loc : SourceLocation)
  | trainExpression (verbs : List Ast) (loc : SourceLocation)
  deriving Repr

/-- The `location` field of a node. -/
def Ast.location : Ast → SourceLocation
  | .nounLiteral _ l => l
  | .vectorLiteral _ l => l
  | .name _ l => l
  | .verb _ l => l
  | .adverb _ l => l
  | .conjunction _ l => l
  | .monadicApplication _ _ l => l
  | .dyadicApplication _ _ _ l => l
  | .adverbApplication _ _ l => l
  | .conjunctionApplication _ _ _ l => l
  | .trainExpression _ l => l

/-! ### Parser, from `src/src/parser/parser.cpp`

Thrown `Parser::error` exceptions are modelled as `none`.  The parser's
recursion (`parse_expression` / `nud` / `led` / `parse_primary`) is modelled
with a single fuel parameter decremented at every nested call; the bounded
token-scanning loops are run with fuel `tokens.length + 1`, which always
suffices because they advance the token index each iteration. -/

/-- The `start_sentinel` token returned by `Parser::previous()` at index 0. -/
def sentinelToken : Token := ⟨.UNKNOWN, "", ⟨0, 0⟩, .mono⟩

/-- Parser state: the token vector and `m_current_token_idx`. -/
structure ParserSt where
  tokens : List Token
  idx : Nat
  deriving Repr

/-- `Parser::peek(offset)`: clamps to the final (EOF) token. -/
def ParserSt.peekAt (p : ParserSt) (offset : Nat) : Token :=
  if p.tokens.length ≤ p.idx + offset then p.tokens.getLastD sentinelToken
  else p.tokens.getD (p.idx + offset) sentinelToken

/-- `Parser::previous()`. -/
def ParserSt.previous (p : ParserSt) : Token :=
  if p.idx = 0 then sentinelToken else p.tokens.getD (p.idx - 1) sentinelToken

/-- `Parser::is_at_end()`. -/
def ParserSt.isAtEnd (p : ParserSt) : Bool := (p.peekAt 0).type == .END_OF_FILE

/-- `Parser::advance()`: returns the consumed token (i.e. `previous()`). -/
def ParserSt.advance (p : ParserSt) : Token × ParserSt :=
  if !p.isAtEnd then
    let p1 : ParserSt := ⟨p.tokens, p.idx + 1⟩
    (p1.previous, p1)
  else (p.previous, p)

/-- `Parser::check(type)`. -/
def ParserSt.check (p : ParserSt) (t : TokenType) : Bool :=
  !p.isAtEnd && (p.peekAt 0).type == t

/-- `Parser::match(types)`: advances past the first matching type. -/
def ParserSt.matchTypes (p : ParserSt) (ts : List TokenType) : Bool × ParserSt :=
  match ts.find? (fun t => p.check t) with
  | some _ => (true, (p.advance).2)
  | none => (false, p)

/-- `Parser::consume(type, msg)`: `none` models the thrown parse error. -/
def ParserSt.consume (p : ParserSt) (t : TokenType) : Option ParserSt :=
  if p.check t then some (p.advance).2 else none

/-- `Parser::get_token_precedence`. -/
def getTokenPrecedence (t : Token) : Int :=
  match t.type with
  | .ASSIGN_LOCAL => 10
  | .ASSIGN_GLOBAL => 10
  | .COMMA => 15
  | .VERB =>
    if t.lexeme == "+" || t.lexeme == "-" then 20
    else if t.lexeme == "*" || t.lexeme == "%" then 20
    else if t.lexeme == "^" then 30
    else 20
  | _ => 0

/-- `Parser::is_verb_like`. -/
def isVerbLike : Ast → Bool
  | .verb _ _ => true
  | .adverb _ _ => true
  | .conjunction _ _ => true
  | .adverbApplication _ _ _ => true
  | .conjunctionApplication _ _ _ _ => true
  | .trainExpression _ _ => true
  | _ => false

/-- `Parser::can_be_argument`. -/
def canBeArgument (t : Token) : Bool :=
  match t.type with
  | .NOUN_INTEGER => true
  | .NOUN_FLOAT => true
  | .NOUN_STRING => true
  | .NAME => true
  | .LEFT_PAREN => true
  | .VERB => true
  | .ADVERB => true
  | .CONJUNCTION => true
  | _ => false

/-- The numeric-literal collection loop shared by `nud` and `parse_primary`
(`while (check(NOUN_INTEGER) || check(NOUN_FLOAT)) ...`); a literal payload
that is neither integer nor float raises a parse error (`none`). -/
def collectNumerics : Nat → ParserSt → List NounValue →
    Option (List NounValue × ParserSt)
  | 0, _, _ => none
  | fuel + 1, p, acc =>
    if p.check .NOUN_INTEGER || p.check .NOUN_FLOAT then
      let (t, p1) := p.advance
      match t.literal with
      | .int v => collectNumerics fuel p1 (acc ++ [.int v])
      | .float v => collectNumerics fuel p1 (acc ++ [.float v])
      | _ => none
    else some (acc, p)

/-- The look-ahead scan over a parenthesized group in `nud`'s `LEFT_PAREN`
case, counting verbs/adverbs to detect a train pattern.  Returns the count and
the scan-end state (the caller restores the saved index afterwards). -/
def trainScan : Nat → ParserSt → Nat → Nat × ParserSt
  | 0, p, count => (count, p)
  | fuel + 1, p, count =>
    if !p.isAtEnd && (p.peekAt 0).type != .RIGHT_PAREN &&
        (p.peekAt 0).type != .END_OF_FILE then
      if (p.peekAt 0).type == .VERB then
        let p1 := (p.advance).2
        let p2 := if !p1.isAtEnd && (p1.peekAt 0).type == .ADVERB then (p1.advance).2 else p1
        trainScan fuel p2 (count + 1)
      else if (p.peekAt 0).type == .ADVERB then
        trainScan fuel ((p.advance).2) (count + 1)
      else (count, p)
    else (count, p)

/-- `Parser::parse_train(first_verb_expr)`: collects the remaining verb-like
members of a train; fewer than two members yields the single member back. -/
def parseTrain : Nat → Ast → List Ast → ParserSt → Ast × ParserSt
  | 0, first, acc, p =>
    -- fuel cannot run out (each step advances); mirror the post-loop logic
    let verbs := first :: acc
    if verbs.length < 2 then (first, p)
    else (.trainExpression verbs first.location, p)
  | fuel + 1, first, acc, p =>
    if !p.isAtEnd && (p.check .VERB || p.check .ADVERB) then
      if p.check .VERB then
        let (vt, p1) := p.advance
        let vnode : Ast := .verb vt.lexeme vt.loc
        if p1.check .ADVERB then
          let (at1, p2) := p1.advance
          let anode : Ast := .adverb at1.lexeme at1.loc
          parseTrain fuel first (acc ++ [.adverbApplication vnode anode vt.loc]) p2
        else parseTrain fuel first (acc ++ [vnode]) p1
      else
        let (at1, p1) := p.advance
        parseTrain fuel first (acc ++ [.adverb at1.lexeme at1.loc]) p1
    else
      let verbs := first :: acc
      if verbs.length < 2 then (first, p)
      else (.trainExpression verbs first.location, p)

/-- A pending call into the mutually recursive group `parse_expression` /
`nud` / `led` / `parse_primary` (plus the while-loop of `parse_expression`).
Encoding the group as one fuel-indexed function keeps the recursion
structural, so the definitions reduce inside the kernel. -/
inductive PReq where
  | expr (minPrec : Int) (p : ParserSt)
  | exprLoop (minPrec : Int) (left : Ast) (p : ParserSt)
  | nudR (token : Token) (p : ParserSt)
  | ledR (token : Token) (left : Ast) (p : ParserSt)
  | primary (p : ParserSt)

/-- Result of a `PReq` call: `node` for an AST node, `nullNode` for
`parse_primary` returning `nullptr` without throwing. -/
inductive POut where
  | node (a : Ast)
  | nullNode

/-- The combined body of `Parser::parse_expression`, its Pratt loop,
`Parser::nud`, `Parser::led` and `Parser::parse_primary`, dispatched on the
pending call; each nested call spends one unit of fuel, exactly one unit per
C++ call. -/
def parseStep : Nat → PReq → Option (POut × ParserSt)
  | 0, _ => none
  | fuel + 1, .expr minPrec p => do
    let (token, p) := p.advance
    let (left, p) ← parseStep fuel (.nudR token p)
    let (POut.node left) := left | none
    let (left, p) ← parseStep fuel (.exprLoop minPrec left p)
    let (POut.node left) := left | none
    if isVerbLike left && !p.isAtEnd && canBeArgument (p.peekAt 0) then
      let (argument, p) ← parseStep fuel (.expr 100 p)
      let (POut.node argument) := argument | none
      some (.node (.monadicApplication left argument left.location), p)
    else
      some (.node left, p)
  | fuel + 1, .exprLoop minPrec left p =>
    if !p.isAtEnd && minPrec < getTokenPrecedence (p.peekAt 0) then do
      let (opToken, p) := p.advance
      let (left1, p) ← parseStep fuel (.ledR opToken left p)
      let (POut.node left1) := left1 | none
      parseStep fuel (.exprLoop minPrec left1 p)
    else some (.node left, p)
  | fuel + 1, .nudR token p =>
    match token.type with
    | .NOUN_INTEGER | .NOUN_FLOAT => do
      let startLoc := token.loc
      let first ← match token.literal with
        | .int v => some (NounValue.int v)
        | .float v => some (NounValue.float v)
        | _ => none
      let (elems, p) ← collectNumerics (p.tokens.length + 1) p [first]
      if 1 < elems.length then some (.node (.vectorLiteral elems startLoc), p)
      else some (.node (.nounLiteral (elems.getD 0 .null) startLoc), p)
    | .NOUN_STRING =>
      match token.literal with
      | .str s => some (.node (.nounLiteral (.str s) token.loc), p)
      | _ => none
    | .NAME => some (.node (.name token.lexeme token.loc), p)
    | .LEFT_PAREN => do
      let saved := p.idx
      let (verbCount, pScan) := trainScan (p.tokens.length + 1) p 0
      let isTrainPattern := 2 ≤ verbCount && !pScan.isAtEnd &&
        (pScan.peekAt 0).type == .RIGHT_PAREN
      let p : ParserSt := ⟨p.tokens, saved⟩
      if isTrainPattern then do
        let (m, p) := p.matchTypes [.VERB]
        if m then
          let vt := p.previous
          let vnode : Ast := .verb vt.lexeme vt.loc
          let (m2, p) := p.matchTypes [.ADVERB]
          let firstVerbExpr :=
            if m2 then
              let at1 := p.previous
              Ast.adverbApplication vnode (.adverb at1.lexeme at1.loc) vt.loc
            else vnode
          let (trainNode, p) := parseTrain (p.tokens.length + 1) firstVerbExpr [] p
          let p ← p.consume .RIGHT_PAREN
          some (.node trainNode, p)
        else
          let (m3, p) := p.matchTypes [.ADVERB]
          if m3 then
            let at1 := p.previous
            let (trainNode, p) :=
              parseTrain (p.tokens.length + 1) (.adverb at1.lexeme at1.loc) [] p
            let p ← p.consume .RIGHT_PAREN
            some (.node trainNode, p)
          else none
      else do
        let (e, p) ← parseStep fuel (.expr 0 p)
        let (POut.node e) := e | none
        let p ← p.consume .RIGHT_PAREN
        some (.node e, p)
    | .VERB =>
      let vnode : Ast := .verb token.lexeme token.loc
      if p.check .ADVERB then do
        let (at1, p) := p.advance
        let anode : Ast := .adverb at1.lexeme at1.loc
        let adverbApp : Ast := .adverbApplication vnode anode token.loc
        let (ro, p) ← parseStep fuel (.primary p)
        match ro with
        | .node r => some (.node (.monadicApplication adverbApp r token.loc), p)
        | .nullNode => none
      else if p.check .CONJUNCTION then do
        let (ct, p) := p.advance
        let cnode : Ast := .conjunction ct.lexeme ct.loc
        let conjApp : Ast := .conjunctionApplication vnode cnode none token.loc
        let (ro, p) ← parseStep fuel (.primary p)
        match ro with
        | .node r => some (.node (.monadicApplication conjApp r token.loc), p)
        | .nullNode => none
      else do
        let (right, p) ← parseStep fuel (.expr 0 p)
        let (POut.node right) := right | none
        some (.node (.monadicApplication vnode right token.loc), p)
    | _ => none
  | fuel + 1, .ledR token leftNode p =>
    match token.type with
    | .VERB | .COMMA => do
      let vnode : Ast := .verb token.lexeme token.loc
      let prec := getTokenPrecedence token
      let (right, p) ← parseStep fuel (.expr (prec - 1) p)
      let (POut.node right) := right | none
      some (.node (.dyadicApplication leftNode vnode right token.loc), p)
    | .ASSIGN_LOCAL | .ASSIGN_GLOBAL =>
      match leftNode with
      | .name _ _ => do
        let prec := getTokenPrecedence token
        let (valueExpr, p) ← parseStep fuel (.expr (prec - 1) p)
        let (POut.node valueExpr) := valueExpr | none
        some (.node valueExpr, p)
      | _ => none
    | _ => none
  | fuel + 1, .primary p =>
    if p.check .NOUN_INTEGER || p.check .NOUN_FLOAT then do
      let startLoc := (p.peekAt 0).loc
      let (elems, p) ← collectNumerics (p.tokens.length + 1) p []
      if 1 < elems.length then some (.node (.vectorLiteral elems startLoc), p)
      else some (.node (.nounLiteral (elems.getD 0 .null) startLoc), p)
    else
      let (mStr, pStr) := p.matchTypes [.NOUN_STRING]
      if mStr then
        match pStr.previous.literal with
        | .str s => some (.node (.nounLiteral (.str s) pStr.previous.loc), pStr)
        | _ => none
      else
        let (mName, pName) := p.matchTypes [.NAME]
        if mName then
          some (.node (.name pName.previous.lexeme pName.previous.loc), pName)
        else
          let (mVerb, pV) := p.matchTypes [.VERB]
          if mVerb then
            let vt := pV.previous
            let vnode : Ast := .verb vt.lexeme vt.loc
            let (mAdv, pA) := pV.matchTypes [.ADVERB]
            if mAdv then do
              let at1 := pA.previous
              let adverbApp : Ast :=
                .adverbApplication vnode (.adverb at1.lexeme at1.loc) vt.loc
              let (op1, pA) ← parseStep fuel (.primary pA)
              match op1 with
              | .node operand =>
                some (.node (.monadicApplication adverbApp operand vt.loc), pA)
              | .nullNode => none
            else if pV.check .CONJUNCTION then do
              let (ct, pC) := pV.advance
              let cnode : Ast := .conjunction ct.lexeme ct.loc
              if pC.check .VERB then do
                let (rvt, pC) := pC.advance
                let rvBase : Ast := .verb rvt.lexeme rvt.loc
                let (rightVerbNode, pC) :=
                  if pC.check .ADVERB then
                    let (rat, pC2) := pC.advance
                    (Ast.adverbApplication rvBase (.adverb rat.lexeme rat.loc) rvt.loc, pC2)
                  else (rvBase, pC)
                let conjApp : Ast :=
                  .conjunctionApplication vnode cnode (some rightVerbNode) vt.loc
                let (op1, pC) ← parseStep fuel (.primary pC)
                match op1 with
                | .node operand =>
                  some (.node (.monadicApplication conjApp operand vt.loc), pC)
                | .nullNode => none
              else if pC.check .ADVERB then none
              else do
                let (rv1, pC) ← parseStep fuel (.primary pC)
                match rv1 with
                | .node rightVerbNode => do
                  let conjApp : Ast :=
                    .conjunctionApplication vnode cnode (some rightVerbNode) vt.loc
                  let (op1, pC) ← parseStep fuel (.primary pC)
                  match op1 with
                  | .node operand =>
                    some (.node (.monadicApplication conjApp operand vt.loc), pC)
                  | .nullNode => none
                | .nullNode => none
            else do
              let (op1, pV) ← parseStep fuel (.primary pV)
              match op1 with
              | .node operand =>
                some (.node (.monadicApplication vnode operand vt.loc), pV)
              | .nullNode => none
          else if (p.peekAt 0).type == .RIGHT_PAREN then
            some (.nullNode, p)
          else none

/-- `Parser::parse_expression(min_precedence)` as a wrapper over
`parseStep`. -/
def parseExpression (fuel : Nat) (minPrec : Int) (p : ParserSt) :
    Option (Ast × ParserSt) :=
  match parseStep fuel (.expr minPrec p) with
  | some (.node a, p1) => some (a, p1)
  | _ => none

/-- `Parser::parse_statement()`.  The assignment branch consumes the name and
assignment tokens, parses the value expression and returns it unchanged (the
C++ prints "Assignment parsing not fully implemented yet" and never builds an
assignment node).  The null-expression fallback of the C++ is unreachable
because `parse_expression` either throws or yields a node. -/
def parseStatement (fuel : Nat) (p : ParserSt) : Option (Ast × ParserSt) :=
  if (p.peekAt 0).type == .NAME &&
      ((p.peekAt 1).type == .ASSIGN_LOCAL || (p.peekAt 1).type == .ASSIGN_GLOBAL) then do
    let (_, p) := p.advance
    let (_, p) := p.advance
    let (valueExpr, p) ← parseExpression fuel 0 p
    some (valueExpr, p)
  else
    parseExpression fuel 0 p

/-- The statement loop of `Parser::parse()`.  After a statement, a leftover
non-newline token breaks out of the loop (for an unmatched `)` the C++ first
consumes the token, which only changes the discarded final parser state, so
both break paths return the statements collected so far).  Each completed
iteration advances the token index, so outer fuel `tokens.length + 1` always
suffices. -/
def parseLoop (exprFuel : Nat) : Nat → ParserSt → List Ast → Option (List Ast)
  | 0, _, stmts => some stmts
  | fuel + 1, p, stmts =>
    if !p.isAtEnd then
      if (p.peekAt 0).type == .NEWLINE then parseLoop exprFuel fuel ((p.advance).2) stmts
      else do
        let (stmt, p) ← parseStatement exprFuel p
        let stmts := stmts ++ [stmt]
        if !p.isAtEnd && (p.peekAt 0).type != .NEWLINE then
          some stmts
        else parseLoop exprFuel fuel p stmts
    else some stmts

/-- `Parser::parse()`: parses statements and returns the first one (or a null
noun literal for an empty program). -/
def parse (exprFuel : Nat) (tokens : List Token) : Option Ast := do
  let stmts ← parseLoop exprFuel (tokens.length + 1) ⟨tokens, 0⟩ []
  if stmts.isEmpty then some (.nounLiteral .null ⟨1, 1⟩)
  else some (stmts.getD 0 (.nounLiteral .null ⟨1, 1⟩))

/-! ### Tensor runtime, from `src/src/interpreter/tf_operations.cpp`

`JTensor` keeps both backing buffers (`m_int_data`, `m_float_data`) plus the
`dtype` tag, exactly as the C++ class does.  The `get_flat<T>` exceptions for a
mismatched dtype are unreachable at the call sites modelled here because every
kernel tests the dtype first, so data access is written directly against the
matching buffer.  Null-pointer inputs are handled by `Option` plumbing at the
interpreter level; kernels that can return `nullptr` return `Option JTensor`. -/

/-- `JTensor::DataType`. -/
inductive DType where
  | INT64 | FLOAT64 | STRING | UNKNOWN
  deriving DecidableEq, Repr

/-- The `JTensor` value: shape (`long long` dims), dtype, and both flat
buffers. -/
structure JTensor where
  shape : List Int
  dtype : DType
  intData : List Int
  floatData : List ℚ
  deriving DecidableEq, Repr

/-- `JTensor::scalar(long long)`. -/
def JTensor.scalarI (v : Int) : JTensor := ⟨[], .INT64, [v], []⟩

/-- `JTensor::scalar(double)`. -/
def JTensor.scalarF (v : ℚ) : JTensor := ⟨[], .FLOAT64, [], [v]⟩

/-- The shape normalization shared by both `JTensor::from_data` overloads: an
empty requested shape becomes scalar for 1-element data, otherwise a rank-1
vector; a non-empty requested shape is adopted unchecked. -/
def fromDataShape (dataLen : Nat) (shape : List Int) : List Int :=
  if shape = [] ∧ dataLen = 1 then []
  else if shape = [] then [(dataLen : Int)]
  else shape

/-- `JTensor::from_data(std::vector<long long>, shape)`. -/
def JTensor.fromDataI (data : List Int) (shape : List Int) : JTensor :=
  ⟨fromDataShape data.length shape, .INT64, data, []⟩

/-- `JTensor::from_data(std::vector<double>, shape)`. -/
def JTensor.fromDataF (data : List ℚ) (shape : List Int) : JTensor :=
  ⟨fromDataShape data.length shape, .FLOAT64, [], data⟩

/-- `JTensor::rank()`. -/
def JTensor.rank (t : JTensor) : Nat := t.shape.length

/-- `JTensor::size()`: 1 for an empty shape, otherwise the product of the
dimensions (`long long` accumulate; the result is cast to `size_t` in C++,
which is faithful here because every reachable shape is non-negative). -/
def JTensor.sizeJ (t : JTensor) : Int :=
  if t.shape = [] then 1 else t.shape.foldl (· * ·) 1

/-- Truncation of a rational toward zero, the behaviour of the C++ cast
`static_cast<long long>(double)`. -/
def ratTrunc (q : ℚ) : Int := Int.tdiv q.num q.den

/-- `JTensor::get_scalar<long long>()` after its rank guard (all call sites
check `rank() == 0` first, so the not-a-scalar exception path is
unreachable). -/
def JTensor.getScalarInt (t : JTensor) : Int :=
  if t.dtype = .INT64 ∧ t.intData ≠ [] then t.intData.headD 0
  else if t.dtype = .FLOAT64 ∧ t.floatData ≠ [] then ratTrunc (t.floatData.headD 0)
  else 0

/-- The `double` view of a tensor's data used by every float-promoting kernel:
`get_flat<long long>` cast element-wise for an `INT64` tensor, otherwise
`get_flat<double>` (numeric tensors only ever reach these kernels). -/
def JTensor.toFloatData (t : JTensor) : List ℚ :=
  if t.dtype = .INT64 then t.intData.map (Int.cast : Int → ℚ) else t.floatData

/-- The common body of `TFSession::add`, `subtract` and `multiply`: rank-0
broadcasting, exact-shape agreement otherwise, float promotion, and an
element-wise loop over `max` of the two data lengths. -/
def elementwiseBinop (opI : Int → Int → Int) (opF : ℚ → ℚ → ℚ)
    (a b : JTensor) : Option JTensor :=
  let aScalar := a.rank = 0
  let bScalar := b.rank = 0
  if ¬aScalar ∧ ¬bScalar ∧ a.shape ≠ b.shape then none
  else
    let resultShape := if aScalar then b.shape else a.shape
    if a.dtype = .FLOAT64 ∨ b.dtype = .FLOAT64 then
      let aD := a.toFloatData
      let bD := b.toFloatData
      let n := max aD.length bD.length
      let data := (List.range n).map fun i =>
        opF (aD.getD (if aScalar then 0 else i) 0) (bD.getD (if bScalar then 0 else i) 0)
      some (JTensor.fromDataF data resultShape)
    else
      let aD := a.intData
      let bD := b.intData
      let n := max aD.length bD.length
      let data := (List.range n).map fun i =>
        opI (aD.getD (if aScalar then 0 else i) 0) (bD.getD (if bScalar then 0 else i) 0)
      some (JTensor.fromDataI data resultShape)

/-- `TFSession::add`. -/
def opAdd (a b : JTensor) : Option JTensor :=
  elementwiseBinop (· + ·) (· + ·) a b

/-- `TFSession::subtract`. -/
def opSubtract (a b : JTensor) : Option JTensor :=
  elementwiseBinop (· - ·) (· - ·) a b

/-- `TFSession::multiply`. -/
def opMultiply (a b : JTensor) : Option JTensor :=
  elementwiseBinop (· * ·) (· * ·) a b

/-- Model of `std::pow` restricted to the rational world: exact for integer
exponents; a non-integer exponent generally yields an irrational real, which
falls outside this model and is mapped to 0 (no theorem below depends on such
a value). -/
def powQ (x y : ℚ) : ℚ :=
  if y.den = 1 then
    if 0 ≤ y.num then x ^ y.num.toNat else (x ^ (-y.num).toNat)⁻¹
  else 0

/-- `TFSession::power`: same agreement rule as `add`, always `double`. -/
def opPower (a b : JTensor) : Option JTensor :=
  let aScalar := a.rank = 0
  let bScalar := b.rank = 0
  if ¬aScalar ∧ ¬bScalar ∧ a.shape ≠ b.shape then none
  else
    let resultShape := if aScalar then b.shape else a.shape
    let aD := a.toFloatData
    let bD := b.toFloatData
    let n := max aD.length bD.length
    let data := (List.range n).map fun i =>
      powQ (aD.getD (if aScalar then 0 else i) 0) (bD.getD (if bScalar then 0 else i) 0)
    some (JTensor.fromDataF data resultShape)

/-- The element loop of `TFSession::divide`, indexing by data length 1 (not by
rank) and aborting with `nullptr` at the first zero divisor. -/
def divideLoop (aD bD : List ℚ) : Nat → Nat → Option (List ℚ)
  | _, 0 => some []
  | i, rem + 1 =>
    let aIdx := if aD.length = 1 then 0 else i
    let bIdx := if bD.length = 1 then 0 else i
    if bD.getD bIdx 0 = 0 then none
    else do
      let rest ← divideLoop aD bD (i + 1) rem
      some (aD.getD aIdx 0 / bD.getD bIdx 0 :: rest)

/-- `TFSession::divide`.  Note the broadcast test differs from `add`: the
shapes may differ whenever either operand has *size* 1 (any rank), and the
result is always `double`. -/
def opDivide (a b : JTensor) : Option JTensor :=
  if a.shape ≠ b.shape ∧ a.sizeJ ≠ 1 ∧ b.sizeJ ≠ 1 then none
  else
    let aD := a.toFloatData
    let bD := b.toFloatData
    let resultShape := if b.sizeJ ≤ a.sizeJ then a.shape else b.shape
    let n := max aD.length bD.length
    match divideLoop aD bD 0 n with
    | none => none
    | some data => some (JTensor.fromDataF data resultShape)

/-- The common body of `TFSession::negate` and `square`: element-wise map in
the input's dtype, keeping the input's shape. -/
def unaryElementwise (opI : Int → Int) (opF : ℚ → ℚ) (t : JTensor) : JTensor :=
  if t.dtype = .INT64 then JTensor.fromDataI (t.intData.map opI) t.shape
  else JTensor.fromDataF (t.floatData.map opF) t.shape

/-- `TFSession::negate`. -/
def opNegate (t : JTensor) : JTensor :=
  unaryElementwise (fun v => -v) (fun v => -v) t

/-- `TFSession::square`. -/
def opSquare (t : JTensor) : JTensor :=
  unaryElementwise (fun v => v * v) (fun v => v * v) t

/-- The element loop of `TFSession::reciprocal`, aborting at the first zero. -/
def recipLoop : List ℚ → Option (List ℚ)
  | [] => some []
  | v :: rest =>
    if v = 0 then none
    else do
      let r ← recipLoop rest
      some (1 / v :: r)

/-- `TFSession::reciprocal`: always `double`, aborts on a zero element. -/
def opReciprocal (t : JTensor) : Option JTensor :=
  match recipLoop t.toFloatData with
  | none => none
  | some data => some (JTensor.fromDataF data t.shape)

/-- `TFSession::iota(n)`: `[0, …, n-1]` with shape `{n}` (an empty loop for
`n ≤ 0`, but the requested shape is still `{n}`). -/
def opIota (n : Int) : JTensor :=
  JTensor.fromDataI ((List.range n.toNat).map Int.ofNat) [n]

/-- `TFSession::reduce_sum`: sums the whole flat buffer into a scalar (the
`axes` argument is ignored by the implementation). -/
def reduceSum (t : JTensor) : JTensor :=
  if t.dtype = .INT64 then JTensor.scalarI (t.intData.foldl (· + ·) 0)
  else JTensor.scalarF (t.floatData.foldl (· + ·) 0)

/-- `TFSession::reduce_product`. -/
def reduceProduct (t : JTensor) : JTensor :=
  if t.dtype = .INT64 then JTensor.scalarI (t.intData.foldl (· * ·) 1)
  else JTensor.scalarF (t.floatData.foldl (· * ·) 1)

/-- `TFSession::reduce_min`: note that an empty buffer yields the scalar 0
(`JTensor::scalar(0LL)` or `scalar(0.0)`), not an error. -/
def reduceMin (t : JTensor) : JTensor :=
  if t.dtype = .INT64 then
    match t.intData with
    | [] => JTensor.scalarI 0
    | x :: xs => JTensor.scalarI (xs.foldl min x)
  else
    match t.floatData with
    | [] => JTensor.scalarF 0
    | x :: xs => JTensor.scalarF (xs.foldl min x)

/-- `TFSession::reduce_max`: an empty buffer likewise yields the scalar 0. -/
def reduceMax (t : JTensor) : JTensor :=
  if t.dtype = .INT64 then
    match t.intData with
    | [] => JTensor.scalarI 0
    | x :: xs => JTensor.scalarI (xs.foldl max x)
  else
    match t.floatData with
    | [] => JTensor.scalarF 0
    | x :: xs => JTensor.scalarF (xs.foldl max x)

/-- `TFSession::reshape(tensor, new_shape)`: cycles the source elements
(`old_data[i % old_size]`) to fill the product of the new shape.  A source of
size 0 makes the C++ modulo/index undefined; here `i % 0 = i` and the
out-of-range read is 0, a path no theorem relies on. -/
def opReshape (t : JTensor) (newShape : List Int) : JTensor :=
  let oldSize := t.sizeJ.toNat
  let newSize := (newShape.map Int.toNat).foldl (· * ·) 1
  if t.dtype = .INT64 then
    JTensor.fromDataI ((List.range newSize).map fun i => t.intData.getD (i % oldSize) 0) newShape
  else
    JTensor.fromDataF ((List.range newSize).map fun i => t.floatData.getD (i % oldSize) 0) newShape

/-- The common body of the five comparison kernels (`equal`, `less_than`,
`greater_than`, `less_equal`, `greater_equal`): float promotion, element loop
over `max` of the data lengths with data-length-1 broadcasting, `Int64` 0/1
results, and a result shape chosen by comparing data lengths.  No shape
agreement is checked at all. -/
def comparisonBinop (cmpI : Int → Int → Bool) (cmpF : ℚ → ℚ → Bool)
    (a b : JTensor) : JTensor :=
  if a.dtype = .FLOAT64 ∨ b.dtype = .FLOAT64 then
    let aD := a.toFloatData
    let bD := b.toFloatData
    let n := max aD.length bD.length
    let data := (List.range n).map fun i =>
      if cmpF (aD.getD (if aD.length = 1 then 0 else i) 0)
              (bD.getD (if bD.length = 1 then 0 else i) 0) then (1 : Int) else 0
    let resultShape := if bD.length < aD.length then a.shape else b.shape
    JTensor.fromDataI data resultShape
  else
    let aD := a.intData
    let bD := b.intData
    let n := max aD.length bD.length
    let data := (List.range n).map fun i =>
      if cmpI (aD.getD (if aD.length = 1 then 0 else i) 0)
              (bD.getD (if bD.length = 1 then 0 else i) 0) then (1 : Int) else 0
    let resultShape := if bD.length < aD.length then a.shape else b.shape
    JTensor.fromDataI data resultShape

/-- `TFSession::equal`. -/
def opEqual (a b : JTensor) : JTensor :=
  comparisonBinop (fun x y => x == y) (fun x y => x == y) a b

/-- `TFSession::less_than`. -/
def opLessThan (a b : JTensor) : JTensor :=
  comparisonBinop (fun x y => x < y) (fun x y => x < y) a b

/-- `TFSession::greater_than`. -/
def opGreaterThan (a b : JTensor) : JTensor :=
  comparisonBinop (fun x y => y < x) (fun x y => y < x) a b

/-- `TFSession::less_equal`. -/
def opLessEqual (a b : JTensor) : JTensor :=
  comparisonBinop (fun x y => x ≤ y) (fun x y => x ≤ y) a b

/-- `TFSession::greater_equal`. -/
def opGreaterEqual (a b : JTensor) : JTensor :=
  comparisonBinop (fun x y => y ≤ x) (fun x y => y ≤ x) a b

/-- `TFSession::concatenate` (axis 0, the only supported axis): flattens both
buffers; rank-0 pairs get shape `{2}`, rank-1 pairs the summed length, any
other combination the total element count. -/
def opConcatenate (a b : JTensor) : JTensor :=
  if a.dtype = .FLOAT64 ∨ b.dtype = .FLOAT64 then
    let aD := a.toFloatData
    let bD := b.toFloatData
    let data := aD ++ bD
    let resultShape :=
      if a.rank = 0 ∧ b.rank = 0 then [(2 : Int)]
      else if a.rank = 1 ∧ b.rank = 1 then [((aD.length + bD.length : Nat) : Int)]
      else [((data.length : Nat) : Int)]
    JTensor.fromDataF data resultShape
  else
    let aD := a.intData
    let bD := b.intData
    let data := aD ++ bD
    let resultShape :=
      if a.rank = 0 ∧ b.rank = 0 then [(2 : Int)]
      else if a.rank = 1 ∧ b.rank = 1 then [((aD.length + bD.length : Nat) : Int)]
      else [((data.length : Nat) : Int)]
    JTensor.fromDataI data resultShape

/-- `TFSession::matrix_multiply`: only the rank-1/rank-1 dot product is
implemented; anything else is `nullptr`. -/
def opMatrixMultiply (a b : JTensor) : Option JTensor :=
  if a.rank ≠ 1 ∨ b.rank ≠ 1 then none
  else if a.shape.headD 0 ≠ b.shape.headD 0 then none
  else if a.dtype = .FLOAT64 ∨ b.dtype = .FLOAT64 then
    let aD := a.toFloatData
    let bD := b.toFloatData
    some (JTensor.scalarF ((List.range aD.length).foldl
      (fun acc i => acc + aD.getD i 0 * bD.getD i 0) 0))
  else
    let aD := a.intData
    let bD := b.intData
    some (JTensor.scalarI ((List.range aD.length).foldl
      (fun acc i => acc + aD.getD i 0 * bD.getD i 0) 0))

/-! ### Evaluator, from `src/src/interpreter/interpreter.cpp`

`JValue` is the variant of `tf_operations.hpp`; the `DeferredTensor`
alternative belongs to the deferred-execution subsystem which is outside the
core (the interpreter is modelled in its constructor-default `EAGER` mode, the
only mode reachable without an explicit `set_execution_mode` call).  The name
environment `m_environment` is threaded explicitly through `evaluate` so that
its evolution is visible in the model. -/

/-- The `JValue` variant (eager alternatives). -/
inductive JValue where
  | jint (v : Int)
  | jfloat (v : ℚ)
  | jstr (s : String)
  | jtensor (t : JTensor)
  | jnull
  deriving DecidableEq, Repr

/-- The evaluator's environment `m_environment` (name → value). -/
def Env := List (String × JValue)

/-- Lookup in the environment (`m_environment.find`). -/
def envFind (env : Env) (n : String) : Option JValue :=
  (List.find? (fun p => p.1 == n) env).map (·.2)

/-- `Interpreter::to_tensor`. -/
def toTensor : JValue → Option JTensor
  | .jtensor t => some t
  | .jint v => some (JTensor.scalarI v)
  | .jfloat v => some (JTensor.scalarF v)
  | _ => none

/-- `Interpreter::from_tensor`: null tensor becomes the null value. -/
def fromTensorV : Option JTensor → JValue
  | none => .jnull
  | some t => .jtensor t

/-- The shared shape of the `j_plus` … `j_power` wrappers: convert both
operands to tensors, fail to null if either conversion fails, then wrap the
kernel result. -/
def dyadicTensorOp (kernel : JTensor → JTensor → Option JTensor)
    (l r : JValue) : JValue :=
  match toTensor l, toTensor r with
  | some a, some b => fromTensorV (kernel a b)
  | _, _ => .jnull

def jPlus (l r : JValue) : JValue := dyadicTensorOp opAdd l r

def jMinus (l r : JValue) : JValue := dyadicTensorOp opSubtract l r

def jTimes (l r : JValue) : JValue := dyadicTensorOp opMultiply l r

def jDivide (l r : JValue) : JValue := dyadicTensorOp opDivide l r

def jPower (l r : JValue) : JValue := dyadicTensorOp opPower l r

def jEqual (l r : JValue) : JValue := dyadicTensorOp (fun a b => some (opEqual a b)) l r

def jLessThan (l r : JValue) : JValue :=
  dyadicTensorOp (fun a b => some (opLessThan a b)) l r

def jGreaterThan (l r : JValue) : JValue :=
  dyadicTensorOp (fun a b => some (opGreaterThan a b)) l r

def jLessEqual (l r : JValue) : JValue :=
  dyadicTensorOp (fun a b => some (opLessEqual a b)) l r

def jGreaterEqual (l r : JValue) : JValue :=
  dyadicTensorOp (fun a b => some (opGreaterEqual a b)) l r

def jConcatenate (l r : JValue) : JValue :=
  dyadicTensorOp (fun a b => some (opConcatenate a b)) l r

/-- `Interpreter::j_iota`: requires a rank-0 argument. -/
def jIota (operand : JValue) : JValue :=
  match toTensor operand with
  | none => .jnull
  | some t =>
    if t.rank ≠ 0 then .jnull
    else fromTensorV (some (opIota t.getScalarInt))

/-- `Interpreter::j_shape`: rank-1 Int64 vector of the argument's shape. -/
def jShape (operand : JValue) : JValue :=
  match toTensor operand with
  | none => .jnull
  | some t => fromTensorV (some (JTensor.fromDataI t.shape [(t.shape.length : Int)]))

/-- `Interpreter::j_tally`: 1 for scalars, else the leading dimension. -/
def jTally (operand : JValue) : JValue :=
  match toTensor operand with
  | none => .jnull
  | some t =>
    let count := if t.rank = 0 then 1 else t.shape.headD 0
    fromTensorV (some (JTensor.scalarI count))

/-- `Interpreter::j_reshape`.  For a rank-0 left operand the new shape is the
one-element list of its value; otherwise the new shape is
`shape_tensor->shape()` — the *dimensions* of the left operand, not its
element values (the slip behind claim C4). -/
def jReshape (shapeV dataV : JValue) : JValue :=
  match toTensor shapeV, toTensor dataV with
  | some st, some dt =>
    let newShape := if st.rank = 0 then [st.getScalarInt] else st.shape
    fromTensorV (some (opReshape dt newShape))
  | _, _ => .jnull

/-- `Interpreter::j_negate`. -/
def jNegate (operand : JValue) : JValue :=
  match toTensor operand with
  | none => .jnull
  | some t => fromTensorV (some (opNegate t))

/-- `Interpreter::j_square`. -/
def jSquare (operand : JValue) : JValue :=
  match toTensor operand with
  | none => .jnull
  | some t => fromTensorV (some (opSquare t))

/-- `Interpreter::j_reciprocal`. -/
def jReciprocal (operand : JValue) : JValue :=
  match toTensor operand with
  | none => .jnull
  | some t => fromTensorV (opReciprocal t)

/-- `Interpreter::execute_monadic_verb`. -/
def executeMonadicVerb (verbName : String) (operand : JValue) : JValue :=
  if verbName == "i." then jIota operand
  else if verbName == "$" then jShape operand
  else if verbName == "#" then jTally operand
  else if verbName == "-" then jNegate operand
  else if verbName == "*:" then jSquare operand
  else if verbName == "%" then jReciprocal operand
  else .jnull

/-- `Interpreter::execute_dyadic_verb`. -/
def executeDyadicVerb (verbName : String) (l r : JValue) : JValue :=
  if verbName == "+" then jPlus l r
  else if verbName == "-" then jMinus l r
  else if verbName == "*" then jTimes l r
  else if verbName == "%" then jDivide l r
  else if verbName == "^" then jPower l r
  else if verbName == "$" then jReshape l r
  else if verbName == "=" then jEqual l r
  else if verbName == "<" then jLessThan l r
  else if verbName == ">" then jGreaterThan l r
  else if verbName == "<:" then jLessEqual l r
  else if verbName == ">:" then jGreaterEqual l r
  else if verbName == "," then jConcatenate l r
  else .jnull

/-- `Interpreter::execute_fold`: the derived reductions `+/ */ </ >/` (also
reached through the `./` adverb). -/
def executeFold (verbName : String) (operand : JValue) : JValue :=
  match toTensor operand with
  | none => .jnull
  | some t =>
    if verbName == "+" then fromTensorV (some (reduceSum t))
    else if verbName == "*" then fromTensorV (some (reduceProduct t))
    else if verbName == "<" then fromTensorV (some (reduceMin t))
    else if verbName == ">" then fromTensorV (some (reduceMax t))
    else .jnull

/-- `Interpreter::execute_adverb_application`: requires a plain verb node and
a plain adverb node; `/` and `./` both fold. -/
def executeAdverbApplication (verbNode adverbNode : Ast) (operand : JValue) : JValue :=
  match verbNode, adverbNode with
  | .verb v _, .adverb a _ =>
    if a == "/" then executeFold v operand
    else if a == "./" then executeFold v operand
    else .jnull
  | _, _ => .jnull

/-- `Interpreter::execute_conjunction_application` (conjunction applied to an
operand): only `.*` is recognized and is a stub that returns the operand
unchanged when it converts to a tensor. -/
def executeConjunctionApplication (conjNode : Ast) (operand : JValue) : JValue :=
  match conjNode with
  | .conjunction c _ =>
    if c == ".*" then
      match toTensor operand with
      | none => .jnull
      | some _ => operand
    else .jnull
  | _ => .jnull

/-- `Interpreter::execute_inner_product`. -/
def executeInnerProduct (verbName : String) (l r : JValue) : JValue :=
  match toTensor l, toTensor r with
  | some a, some b =>
    if verbName == "*" ∧ 2 ≤ a.rank ∧ 2 ≤ b.rank then
      fromTensorV (opMatrixMultiply a b)
    else if verbName == "*" ∧ a.rank = 1 ∧ b.rank = 1 then
      fromTensorV ((opMultiply a b).map reduceSum)
    else
      let multResult := jTimes l r
      if multResult = .jnull then .jnull
      else
        match toTensor multResult with
        | none => multResult
        | some mt =>
          if mt.shape = [] then multResult
          else fromTensorV (some (reduceSum mt))
  | _, _ => .jnull

/-- `Interpreter::evaluate_vector_literal`: single pass that tracks
`all_integers` / `all_floats` while collecting both an integer and a float
image of the elements (integers are pushed to both). -/
def evalVectorLiteral (elems : List NounValue) : JValue :=
  if elems = [] then .jtensor (JTensor.fromDataF [] [0])
  else
    let st := elems.foldl
      (fun (st : Bool × Bool × List Int × List ℚ) e =>
        let (allI, allF, ints, floats) := st
        match e with
        | .int v => (allI, allF, ints ++ [v], floats ++ [(Int.cast v : ℚ)])
        | .float v => (false, allF, ints, floats ++ [v])
        | _ => (false, false, ints, floats))
      (true, true, [], [])
    let (allI, allF, ints, floats) := st
    if allI then .jtensor (JTensor.fromDataI ints [(ints.length : Int)])
    else if allI ∨ allF then .jtensor (JTensor.fromDataF floats [(floats.length : Int)])
    else .jnull

/-- Application of one train member as a monadic verb inside
`evaluate_train_expression`; `none` is the "Unsupported verb type" error. -/
def trainVerbMonadic (v : Ast) (arg : JValue) : Option JValue :=
  match v with
  | .name n _ => some (executeMonadicVerb n arg)
  | .verb n _ => some (executeMonadicVerb n arg)
  | .adverbApplication vb ad _ => some (executeAdverbApplication vb ad arg)
  | _ => none

/-- `Interpreter::evaluate_train_expression` (eager): a 3-verb fork
`(f g h) y = (f y) g (h y)`; 2-verb hooks and other lengths are not
implemented and evaluate to null. -/
def evaluateTrainExpression (verbs : List Ast) (argument : JValue) : JValue :=
  let dflt : Ast := .nounLiteral .null ⟨0, 0⟩
  if verbs.length = 3 then
    match trainVerbMonadic (verbs.getD 0 dflt) argument with
    | none => .jnull
    | some leftResult =>
      match trainVerbMonadic (verbs.getD 2 dflt) argument with
      | none => .jnull
      | some rightResult =>
        if leftResult = .jnull ∨ rightResult = .jnull then .jnull
        else
          match verbs.getD 1 dflt with
          | .name n _ => executeDyadicVerb n leftResult rightResult
          | .verb n _ => executeDyadicVerb n leftResult rightResult
          | _ => .jnull
  else .jnull

/-- `Interpreter::evaluate` with the environment threaded explicitly.  The
dispatch mirrors the C++ switch: there is no assignment case (the enum value
`ASSIGNMENT` has no node type and no handler), and node kinds outside the
switch fall to the "not implemented" default returning null.  No case ever
writes to the environment — the subject of claim C10. -/
def evaluate : Ast → Env → JValue × Env
  | .nounLiteral v _, env =>
    (match v with
     | .int n => .jtensor (JTensor.scalarI n)
     | .float q => .jtensor (JTensor.scalarF q)
     | .str s => .jstr s
     | .null => .jnull, env)
  | .vectorLiteral elems _, env => (evalVectorLiteral elems, env)
  | .name n _, env => ((envFind env n).getD .jnull, env)
  | .monadicApplication v arg _, env =>
    let (operand, env1) := evaluate arg env
    if operand = .jnull then (.jnull, env1)
    else
      (match v with
       | .name vn _ => executeMonadicVerb vn operand
       | .verb vn _ => executeMonadicVerb vn operand
       | .adverbApplication vb ad _ => executeAdverbApplication vb ad operand
       | .conjunctionApplication _ c _ _ => executeConjunctionApplication c operand
       | .trainExpression verbs _ => evaluateTrainExpression verbs operand
       | _ => .jnull, env1)
  | .dyadicApplication l v r _, env =>
    let (lv, env1) := evaluate l env
    let (rv, env2) := evaluate r env1
    if lv = .jnull ∨ rv = .jnull then (.jnull, env2)
    else
      (match v with
       | .name vn _ => executeDyadicVerb vn lv rv
       | .verb vn _ => executeDyadicVerb vn lv rv
       | _ => .jnull, env2)
  | .adverbApplication _ _ _, env =>
    -- `evaluate_adverb_application` prints a diagnostic and returns null for
    -- every adverb (the `/` branch is itself "not fully implemented")
    (.jnull, env)
  | .conjunctionApplication leftOp c _ _, env =>
    (match c with
     | .conjunction cid _ =>
       if cid == ".*" then
         let (verbV, env1) := evaluate leftOp env
         (executeInnerProduct "*" verbV verbV, env1)
       else (.jnull, env)
     | _ => (.jnull, env))
  | .trainExpression _ _, env => (.jnull, env)
  | .verb _ _, env => (.jnull, env)
  | .adverb _ _, env => (.jnull, env)
  | .conjunction _ _, env => (.jnull, env)

/-- The full `tokenize → parse → evaluate` pipeline on a fresh interpreter
(empty environment), returning the resulting value. -/
def interpret (scanFuel exprFuel : Nat) (source : String) : Option JValue := do
  let toks ← tokenize scanFuel source.toList
  let ast ← parse exprFuel toks
  some (evaluate ast []).1

/-- The `tokenize → parse` front half of the pipeline. -/
def parsePipeline (scanFuel exprFuel : Nat) (source : String) : Option Ast := do
  let toks ← tokenize scanFuel source.toList
  parse exprFuel toks

/-- The length of the flat data buffer selected by the dtype tag. -/
def flatLen (t : JTensor) : Nat :=
  match t.dtype with
  | .INT64 => t.intData.length
  | .FLOAT64 => t.floatData.length
  | _ => 0

/-- The spec's array invariant: `data.len() == product(shape)` with the empty
product equal to 1 for scalars (`JTensor::size()` computes exactly that
product). -/
def invariantJ (t : JTensor) : Prop := (flatLen t : Int) = t.sizeJ

/-- A tensor whose data buffer matches its dtype tag (`INT64` or `FLOAT64`);
every tensor the interpreter constructs is of this form. -/
def numericDtype (t : JTensor) : Prop := t.dtype = .INT64 ∨ t.dtype = .FLOAT64

instance (t : JTensor) : Decidable (invariantJ t) := by
  unfold invariantJ; infer_instance

instance (t : JTensor) : Decidable (numericDtype t) := by
  unfold numericDtype; infer_instance

/-- The lexer state reached on input `" "` after `scan_token` consumes the
final space: the position sits at the end of the input. -/
def stuckLexer : Lexer := ⟨[' '], 1, 1, 0⟩

/-! ### Theorems -/

/-- C1: For the source text `<.` (adjacent characters), the lexer of
`src/Src/lexer/lexer.cpp` does NOT produce a single `Verb` token with lexeme
`<.`: its `<` case only fuses `<:` (`match(':')`), so `<.` lexes as the two
tokens `Verb "<"` and `Verb "."` before the end-of-file token.  This
contradicts the spec and the repository's own lexer tests
(`LexerTest.TokenizeDotVerbs` expects a single `VERB` token `<.`), so the
claim stands and the code is the bug. -/
theorem c1_floor_glyph_lexes_as_two_tokens :
    tokenize 8 "<.".toList =
      some [⟨.VERB, "<", ⟨1, 1⟩, .mono⟩, ⟨.VERB, ".", ⟨1, 2⟩, .mono⟩,
            ⟨.END_OF_FILE, "EOF", ⟨1, 3⟩, .mono⟩] := by
  rfl

/-- C2: Application is right-to-left.  Parsing the token stream of
`1 + 2 * 3` yields a `DyadicApplication` whose outermost verb is `+` and whose
right argument is the sub-tree for `2 * 3`; and the full pipeline on
`2 * 3 + 4` yields the Int64 scalar 14. -/
theorem c2_right_to_left_application :
    parsePipeline 16 16 "1 + 2 * 3" =
      some (.dyadicApplication (.nounLiteral (.int 1) ⟨1, 1⟩) (.verb "+" ⟨1, 3⟩)
        (.dyadicApplication (.nounLiteral (.int 2) ⟨1, 5⟩) (.verb "*" ⟨1, 7⟩)
          (.nounLiteral (.int 3) ⟨1, 9⟩) ⟨1, 7⟩) ⟨1, 3⟩) ∧
    interpret 16 16 "2 * 3 + 4" = some (.jtensor (JTensor.scalarI 14)) := by
  exact ⟨rfl, rfl⟩

/-- C3: `(+/ % #) 1 2 3 4` parses as a `MonadicApplication` of a 3-element
`Train` (the fork `+/`, `%`, `#`) to the vector `1 2 3 4`, and the full
pipeline evaluates it — middle verb `%` applied dyadically to `+/ y` (= 10)
and `# y` (= 4) — to the Float64 scalar 2.5 (exactly 5/2, representable and
computed exactly in IEEE-754 double arithmetic). -/
theorem c3_fork_mean_evaluates :
    parsePipeline 32 16 "(+/ % #) 1 2 3 4" =
      some (.monadicApplication
        (.trainExpression
          [.adverbApplication (.verb "+" ⟨1, 2⟩) (.adverb "/" ⟨1, 3⟩) ⟨1, 2⟩,
           .verb "%" ⟨1, 5⟩, .verb "#" ⟨1, 7⟩] ⟨1, 2⟩)
        (.vectorLiteral [.int 1, .int 2, .int 3, .int 4] ⟨1, 10⟩) ⟨1, 2⟩) ∧
    interpret 32 16 "(+/ % #) 1 2 3 4" = some (.jtensor (JTensor.scalarF (5 / 2))) := by
  refine ⟨rfl, ?_⟩
  with_unfolding_all decide

/-- C4: The reshape round-trip fails.  `Interpreter::j_reshape` takes the new
shape from `shape_tensor->shape()` — the *dimensions* of the left operand —
instead of its element values, so `2 3 $ 1 2 3 4 5 6` produces a shape-`[2]`
vector (the left operand is a 2-element vector) and `$ (2 3 $ 1 2 3 4 5 6)`
returns the 1-element vector `2`, not `2 3`. -/
theorem c4_reshape_uses_shape_of_shape :
    interpret 32 16 "$ 2 3 $ 1 2 3 4 5 6" =
      some (.jtensor (JTensor.fromDataI [2] [1])) ∧
    jReshape (.jtensor (JTensor.fromDataI [2, 3] [2]))
        (.jtensor (JTensor.fromDataI [1, 2, 3, 4, 5, 6] [6])) =
      .jtensor (JTensor.fromDataI [1, 2] [2]) ∧
    JTensor.fromDataI [2] [1] ≠ JTensor.fromDataI [2, 3] [2] := by
  exact ⟨rfl, rfl, by decide⟩

/-- C8: Assignment is not implemented.  `Parser::parse_statement` on
`x =. 5` consumes the name and the assignment token and returns only the
right-hand-side expression (no assignment node exists in `ast_nodes.hpp` and
`Interpreter::evaluate` has no assignment case), so evaluating the parsed
program returns 5 while leaving the environment empty, and a subsequent `Name`
lookup of `x` yields the null value (an unbound-name error), not the bound
value the claim requires. -/
theorem c8_assignment_never_binds :
    parsePipeline 16 16 "x =. 5" = some (.nounLiteral (.int 5) ⟨1, 6⟩) ∧
    evaluate (.nounLiteral (.int 5) ⟨1, 6⟩) [] = (.jtensor (JTensor.scalarI 5), []) ∧
    (evaluate (.name "x" ⟨1, 1⟩) []).1 = .jnull := by
  exact ⟨rfl, rfl, rfl⟩

/-- At the end of the input, one `scan_token` step on the stuck state performs
`advance()` (which no longer moves and re-reads the final space), takes the
whitespace branch, skips nothing, and re-invokes `scan_token` on the very same
state. -/
theorem scanToken_stuck_step (n : Nat) :
    Lexer.scanToken (n + 1) stuckLexer = Lexer.scanToken n stuckLexer := rfl

/-- `scan_token` never returns on the stuck state, whatever the fuel. -/
theorem scanToken_stuck : ∀ n : Nat, Lexer.scanToken n stuckLexer = none := by
  intro n
  induction n with
  | zero => rfl
  | succ k ih => rw [scanToken_stuck_step]; exact ih

/-- From the start of the input `" "`, the first `scan_token` call consumes
the space and lands in the stuck state, so it never returns either. -/
theorem scanToken_space_start : ∀ n : Nat, Lexer.scanToken n ⟨[' '], 0, 1, 0⟩ = none := by
  intro n
  cases n with
  | zero => rfl
  | succ k =>
    have hstep : Lexer.scanToken (k + 1) ⟨[' '], 0, 1, 0⟩ =
        Lexer.scanToken k stuckLexer := rfl
    rw [hstep]; exact scanToken_stuck k

/-- C9: `tokenize` is NOT total: on the one-character input `" "` (and any
input ending in non-newline whitespace) `Lexer::scan_token` recurses forever —
`advance()` at the end of the input returns the final space without moving, so
the whitespace branch re-invokes `scan_token` on an unchanged state.  In the
fueled model the scan exhausts every fuel, so `tokenize` never produces a
token vector; in the C++ this is an unbounded recursion (a stack overflow),
contradicting the API contract that `tokenize` always produces a token
vector. -/
theorem c9_tokenize_diverges_on_trailing_space :
    ∀ fuel : Nat, tokenize fuel " ".toList = none := by
  intro fuel
  have h := scanToken_space_start fuel
  show Lexer.tokenizeLoop fuel 2 ⟨[' '], 0, 1, 0⟩ [] = none
  rw [Lexer.tokenizeLoop]
  simp only [h]
  rfl

/-- Every `evaluate` dispatch case returns the environment it was given: the
only recursive calls are on argument sub-trees and no case inserts into
`m_environment` (assignment is unimplemented; `Name` only reads). -/
theorem evaluate_env_eq : ∀ (node : Ast) (env : Env), (evaluate node env).2 = env
  | .nounLiteral v _, _ => by cases v <;> rfl
  | .vectorLiteral _ _, _ => rfl
  | .name _ _, _ => rfl
  | .verb _ _, _ => rfl
  | .adverb _ _, _ => rfl
  | .conjunction _ _, _ => rfl
  | .adverbApplication _ _ _, _ => rfl
  | .trainExpression _ _, _ => rfl
  | .monadicApplication v arg _, env => by
    have ih := evaluate_env_eq arg env
    rcases hv : evaluate arg env with ⟨operand, env1⟩
    rw [hv] at ih
    simp only [evaluate, hv]
    split
    · exact ih
    · exact ih
  | .dyadicApplication l v r _, env => by
    have ih1 := evaluate_env_eq l env
    rcases h1 : evaluate l env with ⟨lv, env1⟩
    rw [h1] at ih1
    have ih2 := evaluate_env_eq r env1
    rcases h2 : evaluate r env1 with ⟨rv, env2⟩
    rw [h2] at ih2
    simp only [evaluate, h1, h2]
    have henv : env2 = env := by
      simp only [] at ih1 ih2
      rw [ih2, ih1]
    split
    · exact henv
    · exact henv
  | .conjunctionApplication leftOp c ro _, env => by
    cases c with
    | conjunction cid lc =>
      simp only [evaluate]
      by_cases hc : (cid == ".*") = true
      · rw [if_pos hc]
        have ih := evaluate_env_eq leftOp env
        rcases h1 : evaluate leftOp env with ⟨vv, env1⟩
        rw [h1] at ih
        simp only []
        exact ih
      · rw [if_neg hc]
    | nounLiteral v lc => rfl
    | vectorLiteral e lc => rfl
    | name n lc => rfl
    | verb i lc => rfl
    | adverb i lc => rfl
    | monadicApplication a b lc => rfl
    | dyadicApplication a b d lc => rfl
    | adverbApplication a b lc => rfl
    | conjunctionApplication a b d lc => rfl
    | trainExpression vs lc => rfl

/-- C10: Evaluation never mutates the name environment: for every AST node
and every environment, `evaluate` returns the environment unchanged (the
environment is only read, during `Name` lookup). -/
theorem c10_evaluate_preserves_environment :
    ∀ (node : Ast) (env : Env), (evaluate node env).2 = env :=
  evaluate_env_eq

/-- A tensor built by `from_data` with an Int64 buffer satisfies the invariant
whenever the requested shape is empty (the constructor then derives the shape
from the data) or its product agrees with the data length. -/
theorem invariantJ_fromDataI (data : List Int) (shape : List Int)
    (h : shape ≠ [] → (data.length : Int) = shape.foldl (· * ·) 1) :
    invariantJ (JTensor.fromDataI data shape) := by
  unfold invariantJ flatLen JTensor.sizeJ JTensor.fromDataI fromDataShape
  by_cases hs : shape = []
  · subst hs
    by_cases hd : data.length = 1
    · simp [hd]
    · simp [hd]
  · have := h hs
    simp [hs, this]

/-- Float64 counterpart of `invariantJ_fromDataI`. -/
theorem invariantJ_fromDataF (data : List ℚ) (shape : List Int)
    (h : shape ≠ [] → (data.length : Int) = shape.foldl (· * ·) 1) :
    invariantJ (JTensor.fromDataF data shape) := by
  unfold invariantJ flatLen JTensor.sizeJ JTensor.fromDataF fromDataShape
  by_cases hs : shape = []
  · subst hs
    by_cases hd : data.length = 1
    · simp [hd]
    · simp [hd]
  · have := h hs
    simp [hs, this]

/-- The float view of a numeric tensor has exactly `flatLen` elements. -/
theorem toFloatData_length (t : JTensor) (h : numericDtype t) :
    t.toFloatData.length = flatLen t := by
  unfold JTensor.toFloatData flatLen
  rcases h with h | h <;> rw [h] <;> simp [List.length_map]

/-- For a numeric tensor that is not Float64, the dtype is Int64. -/
theorem numericDtype_resolve (t : JTensor) (h : numericDtype t)
    (hf : t.dtype ≠ .FLOAT64) : t.dtype = .INT64 := by
  rcases h with h | h
  · exact h
  · exact absurd h hf

/-- A scalar-shaped tensor with the invariant has a 1-element buffer. -/
theorem flatLen_of_scalar_shape (t : JTensor) (ht : invariantJ t)
    (hs : t.shape = []) : flatLen t = 1 := by
  unfold invariantJ JTensor.sizeJ at ht
  rw [hs] at ht
  simp at ht
  exact_mod_cast ht

/-- For a non-scalar shape, the invariant identifies the buffer length with
the shape product. -/
theorem flatLen_of_vector_shape (t : JTensor) (ht : invariantJ t)
    (hs : t.shape ≠ []) : (flatLen t : Int) = t.shape.foldl (· * ·) 1 := by
  unfold invariantJ JTensor.sizeJ at ht
  rw [if_neg hs] at ht
  exact ht

theorem sizeJ_scalar_shape (t : JTensor) (h : t.shape = []) : t.sizeJ = 1 := by
  unfold JTensor.sizeJ; rw [if_pos h]

theorem sizeJ_vector_shape (t : JTensor) (h : t.shape ≠ []) :
    t.sizeJ = t.shape.foldl (· * ·) 1 := by
  unfold JTensor.sizeJ; rw [if_neg h]

theorem broadcastLen_eq (a b : JTensor) (la lb : Nat)
    (hla : (la : Int) = a.sizeJ) (hlb : (lb : Int) = b.sizeJ)
    (hsa : 1 ≤ a.sizeJ) (hsb : 1 ≤ b.sizeJ)
    (hok : a.shape = [] ∨ b.shape = [] ∨ a.shape = b.shape) :
    (if a.rank = 0 then b.shape else a.shape) ≠ [] →
      ((max la lb : Nat) : Int) =
        (if a.rank = 0 then b.shape else a.shape).foldl (· * ·) 1 := by
  intro hrs
  by_cases ha0 : a.shape = []
  · have haR : a.rank = 0 := by simp [JTensor.rank, ha0]
    rw [if_pos haR] at hrs ⊢
    have h1 : a.sizeJ = 1 := sizeJ_scalar_shape a ha0
    have h2 : (lb : Int) = b.shape.foldl (· * ·) 1 := by
      rw [hlb, sizeJ_vector_shape b hrs]
    have hla1 : la = 1 := by omega
    have hlb1 : 1 ≤ lb := by omega
    have : max la lb = lb := by omega
    rw [this, h2]
  · have haR : ¬ a.rank = 0 := by simp [JTensor.rank, ha0]
    rw [if_neg haR] at hrs ⊢
    have h2 : (la : Int) = a.shape.foldl (· * ·) 1 := by
      rw [hla, sizeJ_vector_shape a ha0]
    rcases hok with h | h | h
    · exact absurd h ha0
    · have hb1 : b.sizeJ = 1 := sizeJ_scalar_shape b h
      have : max la lb = la := by omega
      rw [this, h2]
    · have : a.sizeJ = b.sizeJ := by
        rw [sizeJ_vector_shape a ha0, sizeJ_vector_shape b (h ▸ ha0), h]
      have : max la lb = la := by omega
      rw [this, h2]



theorem elementwiseBinop_invariant (opI : Int → Int → Int) (opF : ℚ → ℚ → ℚ)
    (a b t : JTensor) (ha : invariantJ a) (hb : invariantJ b)
    (hna : numericDtype a) (hnb : numericDtype b)
    (hsa : 1 ≤ a.sizeJ) (hsb : 1 ≤ b.sizeJ)
    (h : elementwiseBinop opI opF a b = some t) : invariantJ t := by
  unfold elementwiseBinop at h
  by_cases hmis : ¬(a.rank = 0) ∧ ¬(b.rank = 0) ∧ a.shape ≠ b.shape
  · rw [if_pos hmis] at h
    exact absurd h (by simp)
  · rw [if_neg hmis] at h
    push_neg at hmis
    have hok : a.shape = [] ∨ b.shape = [] ∨ a.shape = b.shape := by
      by_cases h1 : a.rank = 0
      · left; simpa [JTensor.rank, List.length_eq_zero] using h1
      · by_cases h2 : b.rank = 0
        · right; left; simpa [JTensor.rank, List.length_eq_zero] using h2
        · right; right; exact hmis h1 h2
    by_cases hf : a.dtype = .FLOAT64 ∨ b.dtype = .FLOAT64
    · rw [if_pos hf] at h
      injection h with h'
      subst h'
      apply invariantJ_fromDataF
      intro hrs
      have hlen : ((List.range (max a.toFloatData.length b.toFloatData.length)).map
          (fun i => opF (a.toFloatData.getD (if a.rank = 0 then 0 else i) 0)
            (b.toFloatData.getD (if b.rank = 0 then 0 else i) 0))).length
          = max a.toFloatData.length b.toFloatData.length := by
        rw [List.length_map, List.length_range]
      rw [hlen]
      have hla : (a.toFloatData.length : Int) = a.sizeJ := by
        rw [toFloatData_length a hna]; exact ha
      have hlb : (b.toFloatData.length : Int) = b.sizeJ := by
        rw [toFloatData_length b hnb]; exact hb
      exact broadcastLen_eq a b _ _ hla hlb hsa hsb hok hrs
    · rw [if_neg hf] at h
      injection h with h'
      subst h'
      push_neg at hf
      have hai : a.dtype = .INT64 := numericDtype_resolve a hna hf.1
      have hbi : b.dtype = .INT64 := numericDtype_resolve b hnb hf.2
      apply invariantJ_fromDataI
      intro hrs
      have hlen : ((List.range (max a.intData.length b.intData.length)).map
          (fun i => opI (a.intData.getD (if a.rank = 0 then 0 else i) 0)
            (b.intData.getD (if b.rank = 0 then 0 else i) 0))).length
          = max a.intData.length b.intData.length := by
        rw [List.length_map, List.length_range]
      rw [hlen]
      have hla : (a.intData.length : Int) = a.sizeJ := by
        have : flatLen a = a.intData.length := by simp [flatLen, hai]
        rw [← this]; exact ha
      have hlb : (b.intData.length : Int) = b.sizeJ := by
        have : flatLen b = b.intData.length := by simp [flatLen, hbi]
        rw [← this]; exact hb
      exact broadcastLen_eq a b _ _ hla hlb hsa hsb hok hrs



theorem invariantJ_scalarI (v : Int) : invariantJ (JTensor.scalarI v) := by
  simp [invariantJ, flatLen, JTensor.scalarI, JTensor.sizeJ]

theorem invariantJ_scalarF (q : ℚ) : invariantJ (JTensor.scalarF q) := by
  simp [invariantJ, flatLen, JTensor.scalarF, JTensor.sizeJ]

theorem opPower_invariant (a b t : JTensor) (ha : invariantJ a) (hb : invariantJ b)
    (hna : numericDtype a) (hnb : numericDtype b)
    (hsa : 1 ≤ a.sizeJ) (hsb : 1 ≤ b.sizeJ)
    (h : opPower a b = some t) : invariantJ t := by
  unfold opPower at h
  by_cases hmis : ¬(a.rank = 0) ∧ ¬(b.rank = 0) ∧ a.shape ≠ b.shape
  · rw [if_pos hmis] at h
    exact absurd h (by simp)
  · rw [if_neg hmis] at h
    push_neg at hmis
    have hok : a.shape = [] ∨ b.shape = [] ∨ a.shape = b.shape := by
      by_cases h1 : a.rank = 0
      · left; simpa [JTensor.rank, List.length_eq_zero] using h1
      · by_cases h2 : b.rank = 0
        · right; left; simpa [JTensor.rank, List.length_eq_zero] using h2
        · right; right; exact hmis h1 h2
    injection h with h'
    subst h'
    apply invariantJ_fromDataF
    intro hrs
    rw [List.length_map, List.length_range]
    have hla : (a.toFloatData.length : Int) = a.sizeJ := by
      rw [toFloatData_length a hna]; exact ha
    have hlb : (b.toFloatData.length : Int) = b.sizeJ := by
      rw [toFloatData_length b hnb]; exact hb
    exact broadcastLen_eq a b _ _ hla hlb hsa hsb hok hrs

theorem divideLoop_length (aD bD : List ℚ) :
    ∀ (rem i : Nat) (l : List ℚ), divideLoop aD bD i rem = some l → l.length = rem := by
  intro rem
  induction rem with
  | zero =>
    intro i l h
    unfold divideLoop at h
    injection h with h'
    subst h'
    rfl
  | succ k ih =>
    intro i l h
    unfold divideLoop at h
    by_cases hz : bD.getD (if bD.length = 1 then 0 else i) 0 = 0
    · rw [if_pos hz] at h; exact Option.noConfusion h
    · rw [if_neg hz] at h
      cases hrest : divideLoop aD bD (i + 1) k with
      | none => rw [hrest] at h; exact Option.noConfusion h
      | some rest =>
        rw [hrest] at h
        injection h with h'
        subst h'
        simp [ih (i + 1) rest hrest]

theorem divideLen_eq (a b : JTensor) (la lb : Nat)
    (hla : (la : Int) = a.sizeJ) (hlb : (lb : Int) = b.sizeJ) :
    (if b.sizeJ ≤ a.sizeJ then a.shape else b.shape) ≠ [] →
      ((max la lb : Nat) : Int) =
        (if b.sizeJ ≤ a.sizeJ then a.shape else b.shape).foldl (· * ·) 1 := by
  by_cases hc : b.sizeJ ≤ a.sizeJ
  · rw [if_pos hc]
    intro hrs
    have h2 : (la : Int) = a.shape.foldl (· * ·) 1 := by
      rw [hla, sizeJ_vector_shape a hrs]
    have : max la lb = la := by omega
    rw [this, h2]
  · rw [if_neg hc]
    intro hrs
    have h2 : (lb : Int) = b.shape.foldl (· * ·) 1 := by
      rw [hlb, sizeJ_vector_shape b hrs]
    have : max la lb = lb := by omega
    rw [this, h2]

theorem opDivide_invariant (a b t : JTensor) (ha : invariantJ a) (hb : invariantJ b)
    (hna : numericDtype a) (hnb : numericDtype b)
    (h : opDivide a b = some t) : invariantJ t := by
  unfold opDivide at h
  by_cases hmis : a.shape ≠ b.shape ∧ a.sizeJ ≠ 1 ∧ b.sizeJ ≠ 1
  · rw [if_pos hmis] at h
    exact Option.noConfusion h
  · rw [if_neg hmis] at h
    dsimp only at h
    cases hdl : divideLoop a.toFloatData b.toFloatData 0
        (max a.toFloatData.length b.toFloatData.length) with
    | none => rw [hdl] at h; exact Option.noConfusion h
    | some data =>
      rw [hdl] at h
      injection h with h'
      subst h'
      apply invariantJ_fromDataF
      intro hrs
      rw [divideLoop_length _ _ _ _ _ hdl]
      have hla : (a.toFloatData.length : Int) = a.sizeJ := by
        rw [toFloatData_length a hna]; exact ha
      have hlb : (b.toFloatData.length : Int) = b.sizeJ := by
        rw [toFloatData_length b hnb]; exact hb
      exact divideLen_eq a b _ _ hla hlb hrs



theorem unaryElementwise_invariant (opI : Int → Int) (opF : ℚ → ℚ) (t : JTensor)
    (ht : invariantJ t) (hn : numericDtype t) :
    invariantJ (unaryElementwise opI opF t) := by
  unfold unaryElementwise
  by_cases hd : t.dtype = .INT64
  · rw [if_pos hd]
    apply invariantJ_fromDataI
    intro hrs
    rw [List.length_map]
    have hfl : flatLen t = t.intData.length := by simp [flatLen, hd]
    rw [← hfl]
    exact flatLen_of_vector_shape t ht hrs
  · rw [if_neg hd]
    have hdf : t.dtype = .FLOAT64 := by
      rcases hn with h | h
      · exact absurd h hd
      · exact h
    apply invariantJ_fromDataF
    intro hrs
    rw [List.length_map]
    have hfl : flatLen t = t.floatData.length := by simp [flatLen, hdf]
    rw [← hfl]
    exact flatLen_of_vector_shape t ht hrs

theorem recipLoop_length :
    ∀ (l r : List ℚ), recipLoop l = some r → r.length = l.length := by
  intro l
  induction l with
  | nil =>
    intro r h
    unfold recipLoop at h
    injection h with h'
    subst h'
    rfl
  | cons v rest ih =>
    intro r h
    unfold recipLoop at h
    by_cases hz : v = 0
    · rw [if_pos hz] at h; exact Option.noConfusion h
    · rw [if_neg hz] at h
      cases hrest : recipLoop rest with
      | none => rw [hrest] at h; exact Option.noConfusion h
      | some rr =>
        rw [hrest] at h
        injection h with h'
        subst h'
        simp [ih rr hrest]

theorem opReciprocal_invariant (t t' : JTensor) (ht : invariantJ t)
    (hn : numericDtype t) (h : opReciprocal t = some t') : invariantJ t' := by
  unfold opReciprocal at h
  cases hrl : recipLoop t.toFloatData with
  | none => rw [hrl] at h; exact Option.noConfusion h
  | some data =>
    rw [hrl] at h
    injection h with h'
    subst h'
    apply invariantJ_fromDataF
    intro hrs
    rw [recipLoop_length _ _ hrl, toFloatData_length t hn]
    exact flatLen_of_vector_shape t ht hrs

theorem reduceSum_invariant (t : JTensor) : invariantJ (reduceSum t) := by
  unfold reduceSum
  split
  · exact invariantJ_scalarI _
  · exact invariantJ_scalarF _

theorem reduceProduct_invariant (t : JTensor) : invariantJ (reduceProduct t) := by
  unfold reduceProduct
  split
  · exact invariantJ_scalarI _
  · exact invariantJ_scalarF _

theorem reduceMin_invariant (t : JTensor) : invariantJ (reduceMin t) := by
  unfold reduceMin
  split
  · split
    · exact invariantJ_scalarI _
    · exact invariantJ_scalarI _
  · split
    · exact invariantJ_scalarF _
    · exact invariantJ_scalarF _

theorem reduceMax_invariant (t : JTensor) : invariantJ (reduceMax t) := by
  unfold reduceMax
  split
  · split
    · exact invariantJ_scalarI _
    · exact invariantJ_scalarI _
  · split
    · exact invariantJ_scalarF _
    · exact invariantJ_scalarF _

theorem foldl_toNat_cast (l : List Int) (h : ∀ d ∈ l, 0 ≤ d) :
    ∀ acc : Nat, (((l.map Int.toNat).foldl (· * ·) acc : Nat) : Int) =
      l.foldl (· * ·) (acc : Int) := by
  induction l with
  | nil => intro acc; simp
  | cons d rest ih =>
    intro acc
    simp only [List.map_cons, List.foldl_cons]
    have hacc : ((acc * d.toNat : Nat) : Int) = (acc : Int) * d := by
      push_cast
      rw [Int.toNat_of_nonneg (h d (List.mem_cons_self _ _))]
    rw [ih (fun x hx => h x (List.mem_cons_of_mem _ hx)) (acc * d.toNat), hacc]

theorem opReshape_invariant (t : JTensor) (newShape : List Int)
    (h : ∀ d ∈ newShape, 0 ≤ d) : invariantJ (opReshape t newShape) := by
  unfold opReshape
  split
  · apply invariantJ_fromDataI
    intro _
    rw [List.length_map, List.length_range]
    have := foldl_toNat_cast newShape h 1
    simpa using this
  · apply invariantJ_fromDataF
    intro _
    rw [List.length_map, List.length_range]
    have := foldl_toNat_cast newShape h 1
    simpa using this



theorem comparisonLen_eq (a b : JTensor) (la lb : Nat)
    (hla : (la : Int) = a.sizeJ) (hlb : (lb : Int) = b.sizeJ) :
    (if lb < la then a.shape else b.shape) ≠ [] →
      ((max la lb : Nat) : Int) = (if lb < la then a.shape else b.shape).foldl (· * ·) 1 := by
  by_cases hc : lb < la
  · rw [if_pos hc]
    intro hrs
    have h2 : (la : Int) = a.shape.foldl (· * ·) 1 := by
      rw [hla, sizeJ_vector_shape a hrs]
    have : max la lb = la := by omega
    rw [this, h2]
  · rw [if_neg hc]
    intro hrs
    have h2 : (lb : Int) = b.shape.foldl (· * ·) 1 := by
      rw [hlb, sizeJ_vector_shape b hrs]
    have : max la lb = lb := by omega
    rw [this, h2]

theorem comparisonBinop_invariant (cmpI : Int → Int → Bool) (cmpF : ℚ → ℚ → Bool)
    (a b : JTensor) (ha : invariantJ a) (hb : invariantJ b)
    (hna : numericDtype a) (hnb : numericDtype b) :
    invariantJ (comparisonBinop cmpI cmpF a b) := by
  unfold comparisonBinop
  by_cases hf : a.dtype = .FLOAT64 ∨ b.dtype = .FLOAT64
  · rw [if_pos hf]
    apply invariantJ_fromDataI
    intro hrs
    rw [List.length_map, List.length_range]
    have hla : (a.toFloatData.length : Int) = a.sizeJ := by
      rw [toFloatData_length a hna]; exact ha
    have hlb : (b.toFloatData.length : Int) = b.sizeJ := by
      rw [toFloatData_length b hnb]; exact hb
    exact comparisonLen_eq a b _ _ hla hlb hrs
  · rw [if_neg hf]
    push_neg at hf
    have hai : a.dtype = .INT64 := numericDtype_resolve a hna hf.1
    have hbi : b.dtype = .INT64 := numericDtype_resolve b hnb hf.2
    apply invariantJ_fromDataI
    intro hrs
    rw [List.length_map, List.length_range]
    have hla : (a.intData.length : Int) = a.sizeJ := by
      have hfl : flatLen a = a.intData.length := by simp [flatLen, hai]
      rw [← hfl]; exact ha
    have hlb : (b.intData.length : Int) = b.sizeJ := by
      have hfl : flatLen b = b.intData.length := by simp [flatLen, hbi]
      rw [← hfl]; exact hb
    exact comparisonLen_eq a b _ _ hla hlb hrs

theorem concatShape_eq (a b : JTensor) (la lb : Nat)
    (hla : (la : Int) = a.sizeJ) (hlb : (lb : Int) = b.sizeJ) (hd : Nat)
    (hdata : hd = la + lb) :
    (if a.rank = 0 ∧ b.rank = 0 then [(2 : Int)]
     else if a.rank = 1 ∧ b.rank = 1 then [((la + lb : Nat) : Int)]
     else [((hd : Nat) : Int)]) ≠ [] →
      ((la + lb : Nat) : Int) =
        (if a.rank = 0 ∧ b.rank = 0 then [(2 : Int)]
         else if a.rank = 1 ∧ b.rank = 1 then [((la + lb : Nat) : Int)]
         else [((hd : Nat) : Int)]).foldl (· * ·) 1 := by
  intro _
  by_cases h00 : a.rank = 0 ∧ b.rank = 0
  · rw [if_pos h00]
    have ha0 : a.shape = [] := List.length_eq_zero.mp h00.1
    have hb0 : b.shape = [] := List.length_eq_zero.mp h00.2
    have h1 : a.sizeJ = 1 := sizeJ_scalar_shape a ha0
    have h2 : b.sizeJ = 1 := sizeJ_scalar_shape b hb0
    simp only [List.foldl_cons, List.foldl_nil, one_mul]
    omega
  · rw [if_neg h00]
    by_cases h11 : a.rank = 1 ∧ b.rank = 1
    · rw [if_pos h11]
      simp [List.foldl_cons]
    · rw [if_neg h11]
      simp [List.foldl_cons, hdata]

theorem opConcatenate_invariant (a b : JTensor) (ha : invariantJ a) (hb : invariantJ b)
    (hna : numericDtype a) (hnb : numericDtype b) :
    invariantJ (opConcatenate a b) := by
  unfold opConcatenate
  by_cases hf : a.dtype = .FLOAT64 ∨ b.dtype = .FLOAT64
  · rw [if_pos hf]
    have hla : (a.toFloatData.length : Int) = a.sizeJ := by
      rw [toFloatData_length a hna]; exact ha
    have hlb : (b.toFloatData.length : Int) = b.sizeJ := by
      rw [toFloatData_length b hnb]; exact hb
    apply invariantJ_fromDataF
    rw [List.length_append]
    exact concatShape_eq a b _ _ hla hlb _ rfl
  · rw [if_neg hf]
    push_neg at hf
    have hai : a.dtype = .INT64 := numericDtype_resolve a hna hf.1
    have hbi : b.dtype = .INT64 := numericDtype_resolve b hnb hf.2
    have hla : (a.intData.length : Int) = a.sizeJ := by
      have hfl : flatLen a = a.intData.length := by simp [flatLen, hai]
      rw [← hfl]; exact ha
    have hlb : (b.intData.length : Int) = b.sizeJ := by
      have hfl : flatLen b = b.intData.length := by simp [flatLen, hbi]
      rw [← hfl]; exact hb
    apply invariantJ_fromDataI
    rw [List.length_append]
    exact concatShape_eq a b _ _ hla hlb _ rfl

theorem opMatrixMultiply_invariant (a b t : JTensor)
    (h : opMatrixMultiply a b = some t) : invariantJ t := by
  unfold opMatrixMultiply at h
  by_cases h1 : a.rank ≠ 1 ∨ b.rank ≠ 1
  · rw [if_pos h1] at h; exact Option.noConfusion h
  · rw [if_neg h1] at h
    by_cases h2 : a.shape.headD 0 ≠ b.shape.headD 0
    · rw [if_pos h2] at h; exact Option.noConfusion h
    · rw [if_neg h2] at h
      by_cases h3 : a.dtype = .FLOAT64 ∨ b.dtype = .FLOAT64
      · rw [if_pos h3] at h
        injection h with h'
        subst h'
        exact invariantJ_scalarF _
      · rw [if_neg h3] at h
        injection h with h'
        subst h'
        exact invariantJ_scalarI _

theorem opIota_invariant (n : Int) (h : 0 ≤ n) : invariantJ (opIota n) := by
  unfold opIota
  apply invariantJ_fromDataI
  intro _
  rw [List.length_map, List.length_range]
  simp [Int.toNat_of_nonneg h]

/-- C5 (corrected): the invariant `data.len = product(shape)` as a universal
statement over "every constructor" is false — `JTensor::from_data` adopts an
explicit shape without validating it against the data, and an element-wise
kernel applied to a scalar and an empty array emits a 1-element buffer under
shape `[0]`.  This closed theorem exhibits both violations. -/
theorem c5_counterexample_from_data_unchecked :
    ¬ invariantJ (JTensor.fromDataI [1, 2, 3] [2]) ∧
    opAdd (JTensor.scalarI 5) (opIota 0) = some (JTensor.fromDataI [5] [0]) ∧
    ¬ invariantJ (JTensor.fromDataI [5] [0]) := by
  refine ⟨by decide, rfl, by decide⟩

/-- C5 (amended): the invariant `data.len() = product(shape)` (empty product
= 1) holds for every array the runtime builds along validated paths: the
scalar constructors; `from_data` with an empty requested shape, or with an
explicit shape whose product equals the data length; `iota` of a non-negative
count; and every primitive kernel applied to numeric operands that satisfy
the invariant — the rank-0-broadcast element-wise kernels additionally
requiring both operands non-empty.  `from_data` itself performs no validation
(see the counterexample). -/
theorem c5_invariant_preserved_on_validated_paths :
    (∀ v : Int, invariantJ (JTensor.scalarI v)) ∧
    (∀ q : ℚ, invariantJ (JTensor.scalarF q)) ∧
    (∀ dataI : List Int, invariantJ (JTensor.fromDataI dataI [])) ∧
    (∀ dataF : List ℚ, invariantJ (JTensor.fromDataF dataF [])) ∧
    (∀ (dataI : List Int) (shape : List Int),
      (dataI.length : Int) = shape.foldl (· * ·) 1 →
      invariantJ (JTensor.fromDataI dataI shape)) ∧
    (∀ (dataF : List ℚ) (shape : List Int),
      (dataF.length : Int) = shape.foldl (· * ·) 1 →
      invariantJ (JTensor.fromDataF dataF shape)) ∧
    (∀ n : Int, 0 ≤ n → invariantJ (opIota n)) ∧
    (∀ (opI : Int → Int → Int) (opF : ℚ → ℚ → ℚ) (a b t : JTensor),
      invariantJ a → invariantJ b → numericDtype a → numericDtype b →
      1 ≤ a.sizeJ → 1 ≤ b.sizeJ → elementwiseBinop opI opF a b = some t →
      invariantJ t) ∧
    (∀ a b t : JTensor,
      invariantJ a → invariantJ b → numericDtype a → numericDtype b →
      1 ≤ a.sizeJ → 1 ≤ b.sizeJ → opPower a b = some t → invariantJ t) ∧
    (∀ a b t : JTensor,
      invariantJ a → invariantJ b → numericDtype a → numericDtype b →
      opDivide a b = some t → invariantJ t) ∧
    (∀ (opI : Int → Int) (opF : ℚ → ℚ) (t : JTensor),
      invariantJ t → numericDtype t → invariantJ (unaryElementwise opI opF t)) ∧
    (∀ t t' : JTensor,
      invariantJ t → numericDtype t → opReciprocal t = some t' → invariantJ t') ∧
    (∀ t : JTensor, invariantJ (reduceSum t) ∧ invariantJ (reduceProduct t) ∧
      invariantJ (reduceMin t) ∧ invariantJ (reduceMax t)) ∧
    (∀ (t : JTensor) (newShape : List Int), (∀ d ∈ newShape, 0 ≤ d) →
      invariantJ (opReshape t newShape)) ∧
    (∀ (cmpI : Int → Int → Bool) (cmpF : ℚ → ℚ → Bool) (a b : JTensor),
      invariantJ a → invariantJ b → numericDtype a → numericDtype b →
      invariantJ (comparisonBinop cmpI cmpF a b)) ∧
    (∀ a b : JTensor, invariantJ a → invariantJ b → numericDtype a →
      numericDtype b → invariantJ (opConcatenate a b)) ∧
    (∀ a b t : JTensor, opMatrixMultiply a b = some t → invariantJ t) :=
  ⟨invariantJ_scalarI, invariantJ_scalarF,
   fun d => invariantJ_fromDataI d [] (fun hc => absurd rfl hc),
   fun d => invariantJ_fromDataF d [] (fun hc => absurd rfl hc),
   fun d s h => invariantJ_fromDataI d s (fun _ => h),
   fun d s h => invariantJ_fromDataF d s (fun _ => h),
   opIota_invariant, elementwiseBinop_invariant, opPower_invariant,
   opDivide_invariant, unaryElementwise_invariant, opReciprocal_invariant,
   fun t => ⟨reduceSum_invariant t, reduceProduct_invariant t,
     reduceMin_invariant t, reduceMax_invariant t⟩,
   opReshape_invariant, comparisonBinop_invariant, opConcatenate_invariant,
   opMatrixMultiply_invariant⟩

/-- Witness for C5: the element-wise clause applied at concrete inputs —
adding the scalar 2 to the vector `1 2 3` keeps the invariant. -/
theorem c5_witness_concrete :
    invariantJ (JTensor.fromDataI [3, 4, 5] [3]) :=
  c5_invariant_preserved_on_validated_paths.2.2.2.2.2.2.2.1
    (· + ·) (· + ·) (JTensor.scalarI 2) (JTensor.fromDataI [1, 2, 3] [3])
    (JTensor.fromDataI [3, 4, 5] [3])
    (by decide) (by decide) (by decide) (by decide) (by decide) (by decide) rfl

/-- Shape agreement failure for the `add`/`subtract`/`multiply` skeleton:
`nullptr` exactly on two non-scalars of different shapes. -/
theorem elementwiseBinop_none_iff (opI : Int → Int → Int) (opF : ℚ → ℚ → ℚ)
    (a b : JTensor) :
    elementwiseBinop opI opF a b = none ↔
      a.rank ≠ 0 ∧ b.rank ≠ 0 ∧ a.shape ≠ b.shape := by
  unfold elementwiseBinop
  by_cases hc : ¬(a.rank = 0) ∧ ¬(b.rank = 0) ∧ a.shape ≠ b.shape
  · rw [if_pos hc]
    simpa using hc
  · rw [if_neg hc]
    constructor
    · intro h
      by_cases hf : a.dtype = .FLOAT64 ∨ b.dtype = .FLOAT64
      · rw [if_pos hf] at h; exact Option.noConfusion h
      · rw [if_neg hf] at h; exact Option.noConfusion h
    · intro h; exact absurd h hc

/-- `TFSession::power` has the same agreement failure rule. -/
theorem opPower_none_iff (a b : JTensor) :
    opPower a b = none ↔ a.rank ≠ 0 ∧ b.rank ≠ 0 ∧ a.shape ≠ b.shape := by
  unfold opPower
  by_cases hc : ¬(a.rank = 0) ∧ ¬(b.rank = 0) ∧ a.shape ≠ b.shape
  · rw [if_pos hc]
    simpa using hc
  · rw [if_neg hc]
    constructor
    · intro h; exact Option.noConfusion h
    · intro h; exact absurd h hc

/-- C6 (corrected): the shape-agreement rule as implemented.  `add`,
`subtract`, `multiply` and `power` fail exactly on two non-scalar operands of
different shapes (so for these a successful broadcast does require a rank-0
operand or equal shapes); but `divide` tests *size* 1 rather than rank 0,
failing only when both operands have more than one element, and the
comparison kernels are total functions that never perform any shape check. -/
theorem c6_shape_mismatch_rules :
    (∀ a b : JTensor,
      (opAdd a b = none ↔ a.rank ≠ 0 ∧ b.rank ≠ 0 ∧ a.shape ≠ b.shape) ∧
      (opSubtract a b = none ↔ a.rank ≠ 0 ∧ b.rank ≠ 0 ∧ a.shape ≠ b.shape) ∧
      (opMultiply a b = none ↔ a.rank ≠ 0 ∧ b.rank ≠ 0 ∧ a.shape ≠ b.shape) ∧
      (opPower a b = none ↔ a.rank ≠ 0 ∧ b.rank ≠ 0 ∧ a.shape ≠ b.shape)) ∧
    (∀ a b : JTensor, a.shape ≠ b.shape → a.sizeJ ≠ 1 → b.sizeJ ≠ 1 →
      opDivide a b = none) := by
  constructor
  · intro a b
    exact ⟨elementwiseBinop_none_iff _ _ a b, elementwiseBinop_none_iff _ _ a b,
      elementwiseBinop_none_iff _ _ a b, opPower_none_iff a b⟩
  · intro a b h1 h2 h3
    unfold opDivide
    rw [if_pos ⟨h1, h2, h3⟩]

/-- Witness for C6: the divide clause applied at concrete tensors of shapes
`[2]` and `[3]`. -/
theorem c6_witness_concrete :
    opDivide (JTensor.fromDataI [1, 2] [2]) (JTensor.fromDataI [1, 2, 3] [3]) = none :=
  c6_shape_mismatch_rules.2 (JTensor.fromDataI [1, 2] [2])
    (JTensor.fromDataI [1, 2, 3] [3]) (by decide) (by decide) (by decide)

/-- C6 (counterexample): the claim as stated is false for `%` and for the
comparisons.  Dividing the shape-`[1]` vector `10` by the shape-`[3]` vector
`1 2 5` — both non-scalar, shapes different — succeeds with `10 5 2`,
because `TFSession::divide` broadcasts any *size-1* operand; and `less_than`
on operands of shapes `[2]` and `[2,1]` succeeds as well, because the
comparison kernels never compare shapes. -/
theorem c6_counterexample_divide_and_compare :
    (JTensor.fromDataI [10] [1]).rank ≠ 0 ∧
    (JTensor.fromDataI [1, 2, 5] [3]).rank ≠ 0 ∧
    (JTensor.fromDataI [10] [1]).shape ≠ (JTensor.fromDataI [1, 2, 5] [3]).shape ∧
    opDivide (JTensor.fromDataI [10] [1]) (JTensor.fromDataI [1, 2, 5] [3]) =
      some (JTensor.fromDataF [10, 5, 2] [3]) ∧
    opLessThan (JTensor.fromDataI [1, 2] [2]) (JTensor.fromDataI [3, 0] [2, 1]) =
      JTensor.fromDataI [1, 0] [2, 1] := by
  refine ⟨by decide, by decide, by decide, ?_, by decide⟩
  with_unfolding_all decide

/-- C7 (counterexample): the derived min/max reductions over `<` and `>`
applied to the empty array `i. 0` do not fail — `TFSession::reduce_min` and
`reduce_max` return the scalar 0 for an empty buffer, a value, not an
error. -/
theorem c7_counterexample_empty_min_returns_zero :
    executeFold "<" (.jtensor (opIota 0)) = .jtensor (JTensor.scalarI 0) ∧
    executeFold ">" (.jtensor (opIota 0)) = .jtensor (JTensor.scalarI 0) ∧
    JValue.jtensor (JTensor.scalarI 0) ≠ JValue.jnull := by
  refine ⟨rfl, rfl, by decide⟩

/-- C7 (amended): reduction of an empty array never errors: `+/` gives 0 and
`*/` gives 1 as claimed, while the min/max reductions over `<` and `>` give
the scalar 0 (Int64 0 resp. Float64 0.0 by dtype) instead of failing. -/
theorem c7_empty_reductions :
    (∀ t : JTensor, t.dtype = .INT64 → t.intData = [] →
      executeFold "+" (.jtensor t) = .jtensor (JTensor.scalarI 0) ∧
      executeFold "*" (.jtensor t) = .jtensor (JTensor.scalarI 1) ∧
      executeFold "<" (.jtensor t) = .jtensor (JTensor.scalarI 0) ∧
      executeFold ">" (.jtensor t) = .jtensor (JTensor.scalarI 0)) ∧
    (∀ t : JTensor, t.dtype = .FLOAT64 → t.floatData = [] →
      executeFold "+" (.jtensor t) = .jtensor (JTensor.scalarF 0) ∧
      executeFold "*" (.jtensor t) = .jtensor (JTensor.scalarF 1) ∧
      executeFold "<" (.jtensor t) = .jtensor (JTensor.scalarF 0) ∧
      executeFold ">" (.jtensor t) = .jtensor (JTensor.scalarF 0)) := by
  constructor
  · intro t hdt hdata
    refine ⟨?_, ?_, ?_, ?_⟩ <;>
      simp [executeFold, toTensor, fromTensorV, reduceSum, reduceProduct,
        reduceMin, reduceMax, hdt, hdata]
  · intro t hdt hdata
    have hni : t.dtype ≠ .INT64 := by rw [hdt]; decide
    refine ⟨?_, ?_, ?_, ?_⟩ <;>
      simp [executeFold, toTensor, fromTensorV, reduceSum, reduceProduct,
        reduceMin, reduceMax, hdt, hdata, hni]

/-- Witness for C7: the Int64 clause applied at the concrete empty array
`i. 0`. -/
theorem c7_witness_concrete :
    executeFold "+" (.jtensor (opIota 0)) = .jtensor (JTensor.scalarI 0) ∧
    executeFold "*" (.jtensor (opIota 0)) = .jtensor (JTensor.scalarI 1) :=
  ⟨(c7_empty_reductions.1 (opIota 0) (by decide) (by decide)).1,
   (c7_empty_reductions.1 (opIota 0) (by decide) (by decide)).2.1⟩

end JInterpreter
